import Mathlib

/-!
Verification of the complex structural-variant resolution core of svtk.

This file gives a shallow embedding of the relevant Python modules:

* `svtools/cxsv/cpx_tloc.py` (translocation classification),
* `svtk/cxsv/complex_sv.py` (the `ComplexSV` classification pipeline),
* `svtk/cxsv/rescan_single_enders.py` (single-ender rescue),
* `svtk/cli/resolve.py` (`resolve_complex_sv` and `_merge_records`).

VCF records are modelled by the structure `VRecord`, keeping exactly the
fields the embedded code reads or writes.  External collaborators that are
not part of the repository sources (pysam record behaviour, the cytoband
arm lookup, the mobile-element coverage predicate, the genome clustering
primitive, the contig-rank table) are modelled from the specification and
are passed in as explicit parameters, so every theorem quantifies over
them.  All definitions are executable.
-/

namespace Svtk

/-! ### String helpers

Python string primitives used by the sources, implemented structurally on
the character list of a `String` so that they evaluate by `decide`. -/

/-- Lexicographic strict comparison of character lists by code point,
matching the ordering Python uses when comparing or sorting strings. -/
def lexLtL : List Char → List Char → Bool
  | [], [] => false
  | [], _ :: _ => true
  | _ :: _, [] => false
  | a :: as, b :: bs => if a < b then true else if a == b then lexLtL as bs else false

/-- Python string comparison `a < b`. -/
def strLt (a b : String) : Bool := lexLtL a.toList b.toList

/-- Check whether `pat` is a prefix of `l`. -/
def listPrefixOf : List Char → List Char → Bool
  | [], _ => true
  | _ :: _, [] => false
  | a :: as, b :: bs => a == b && listPrefixOf as bs

/-- Check whether `pat` occurs as a contiguous sublist of the second list. -/
def listSubOf (pat : List Char) : List Char → Bool
  | [] => listPrefixOf pat []
  | c :: cs => listPrefixOf pat (c :: cs) || listSubOf pat cs

/-- Python substring membership `pat in s`. -/
def strHas (s pat : String) : Bool := listSubOf pat.toList s.toList

/-- Python `s.startswith(pat)`. -/
def strStarts (s pat : String) : Bool := listPrefixOf pat.toList s.toList

/-- Python `s.endswith(pat)`. -/
def strEnds (s pat : String) : Bool := listPrefixOf pat.toList.reverse s.toList.reverse

/-- Helper for `splitOnChar`: accumulates the current field in reverse. -/
def splitOnCharAux (sep : Char) : List Char → List Char → List String
  | [], acc => [String.mk acc.reverse]
  | c :: cs, acc =>
    if c == sep then String.mk acc.reverse :: splitOnCharAux sep cs []
    else splitOnCharAux sep cs (c :: acc)

/-- Python `s.split(sep)` for a one-character separator. -/
def splitOnChar (sep : Char) (s : String) : List String := splitOnCharAux sep s.toList []

/-- Character class for Python `s.strip("<>")`. -/
def isAngle (c : Char) : Bool := c == '<' || c == '>'

/-- Python `s.strip("<>")`: removes angle brackets from both ends. -/
def pyStripAngles (s : String) : String :=
  String.mk (((s.toList.dropWhile isAngle).reverse.dropWhile isAngle).reverse)

/-- Decimal digits of `n`, most significant first, computed with a fuel
argument so that the definition is structurally recursive. -/
def natStrAux : Nat → Nat → List Char
  | 0, _ => []
  | fuel + 1, n =>
    if n == 0 then [] else natStrAux fuel (n / 10) ++ [Char.ofNat (48 + n % 10)]

/-- Python `str(n)` for a natural number. -/
def natStr (n : Nat) : String := if n == 0 then "0" else String.mk (natStrAux (n + 1) n)

/-- Python `str(i)` for an integer. -/
def intStr (i : Int) : String := if i < 0 then "-" ++ natStr i.natAbs else natStr i.natAbs

/-- Stable insertion of a string into a list, used by `sortStrs`. -/
def insertStr (x : String) : List String → List String
  | [] => [x]
  | y :: ys => if strLt x y then x :: y :: ys else y :: insertStr x ys

/-- Python `sorted` on a list of strings (insertion sort, code-point order). -/
def sortStrs : List String → List String
  | [] => []
  | x :: xs => insertStr x (sortStrs xs)

/-- Python `sorted(set(l))`: sorted list of the distinct elements. -/
def sorted_set (l : List String) : List String := sortStrs l.dedup

/-- Maximum of a nonempty collection given as head and tail. -/
def listMax (x : Int) (xs : List Int) : Int := xs.foldl max x

/-- Minimum of a nonempty collection given as head and tail. -/
def listMin (x : Int) (xs : List Int) : Int := xs.foldl min x

/-- Python `max(l)`: raises `ValueError` on an empty sequence. -/
def maxOfList : List Int → Except String Int
  | [] => Except.error "ValueError: max() arg is an empty sequence"
  | x :: xs => Except.ok (listMax x xs)

/-- Python `min(l)`: raises `ValueError` on an empty sequence. -/
def minOfList : List Int → Except String Int
  | [] => Except.error "ValueError: min() arg is an empty sequence"
  | x :: xs => Except.ok (listMin x xs)

/-! ### The record model

`VRecord` models a `pysam.VariantRecord` restricted to the fields the
embedded code reads or writes.  INFO fields that may be absent are
`Option`-valued.  `calledSamples` models the external
`svu.get_called_samples(record)` helper as a per-record attribute. -/

/-- Shallow model of a pysam `VariantRecord` as used by the svtk sources. -/
structure VRecord where
  id : String
  chrom : String
  pos : Int
  endInfo : Option Int
  alts : List String
  svtypeInfo : String
  chr2 : String
  strandsInfo : Option String
  algorithms : List String
  membersInfo : List String
  evidenceInfo : Option (List String)
  svlen : Int
  cpxTypeInfo : Option String
  cpxIntervals : List String
  sourceInfo : Option String
  eventInfo : Option String
  unresolvedFlag : Bool
  varGQ : Option Int
  calledSamples : List String
  cipos : Option Int
  ciend : Option Int
  rmsstd : Option Int
deriving DecidableEq

/-- Modelled from the spec: a record with an END INFO field reports it as its
stop coordinate; with the field cleared, the stop falls back to a
position-derived default (pysam uses the reference-allele span). -/
def VRecord.stop (r : VRecord) : Int := r.endInfo.getD (r.pos + 1)

/-- Assignment `record.stop = v`, which writes the END INFO field. -/
def VRecord.setStop (r : VRecord) (v : Int) : VRecord := { r with endInfo := some v }

/-- Modelled from the spec: "setting the alt-allele symbol clears any existing
end-position field".  Assigning `record.alts` therefore resets `endInfo`. -/
def VRecord.setAlts (r : VRecord) (a : List String) : VRecord :=
  { r with alts := a, endInfo := none }

/-- Access to `record.info["STRANDS"]`; defined on records carrying the
field (every clustered breakpoint record does). -/
def VRecord.strands (r : VRecord) : String := r.strandsInfo.getD ""

/-! ### Translocation classification (`svtools/cxsv/cpx_tloc.py`) -/

/-- Buffered comparison `_greater` from `classify_simple_translocation`. -/
def _greater (mh_buffer p1 p2 : Int) : Bool := decide (p1 > p2 - mh_buffer)

/-- Embedding of `classify_simple_translocation(plus, minus, mh_buffer)`.
The Python code reads `plus.info["END"]`, which for these records is the
stop coordinate. -/
def classify_simple_translocation (plus minus : VRecord) (mh_buffer : Int) : String :=
  if plus.chrom != minus.chrom || plus.chr2 != minus.chr2 then "TLOC_MISMATCH_CHROM"
  else
    let plus_A := plus.pos
    let minus_A := minus.pos
    let plus_B := plus.stop
    let minus_B := minus.stop
    let plus_strands := plus.strands
    if plus_strands == "+-" then
      if _greater mh_buffer minus_A plus_A && _greater mh_buffer plus_B minus_B then "CTX_PP/QQ"
      else if _greater mh_buffer minus_A plus_A && _greater mh_buffer minus_B plus_B then "CTX_INS_B2A"
      else if _greater mh_buffer plus_A minus_A && _greater mh_buffer plus_B minus_B then "CTX_INS_A2B"
      else "CTX_UNR"
    else
      if _greater mh_buffer minus_A plus_A && _greater mh_buffer minus_B plus_B then "CTX_PQ/QP"
      else if _greater mh_buffer minus_A plus_A && _greater mh_buffer plus_B minus_B then "CTX_INV_INS_B2A"
      else if _greater mh_buffer plus_A minus_A && _greater mh_buffer minus_B plus_B then "CTX_INV_INS_A2B"
      else "CTX_UNR"

/-! ### The `ComplexSV` pipeline (`svtk/cxsv/complex_sv.py`)

The classifier state is `CpxState`, holding the fields of a `ComplexSV`
object that the pipeline mutates: the member record list, the synthesized
`vcf_record`, and the `cluster_type` / `svtype` / `cpx_type` attributes.
The Python attributes `svtype` and `cpx_type` are unset until `resolve`
assigns them; they start as the empty string here.

Repository code that is not part of the sources under verification is
passed in through `CpxParams`:

* `classifyInv` models `classify_complex_inversion` (module `cpx_inv.py`,
  not among the sources): from the FF and RR breakpoints and the CNV list
  it returns the complex type and the retained CNV records.
* `classifyIns` models `classify_insertion` (same missing module).
* `cytobands` models the external cytoband arm lookup `get_arms`:
  the arm label for a chromosome and position.
* `meiCheck` models `check_mei_overlap`, the external interval-coverage
  predicate against the mobile-element reference.
* `hasEvidenceKey` models `"EVIDENCE" in header.info.keys()`, and
  `hasVarGQKey` models `"varGQ" in header.info.keys()`. -/

/-- External collaborators of the `ComplexSV` pipeline, passed as data. -/
structure CpxParams where
  classifyInv : VRecord → VRecord → List VRecord → String × List VRecord
  classifyIns : VRecord → VRecord → String
  cytobands : String → Int → String
  meiCheck : String → Int → Int → Bool
  hasEvidenceKey : Bool
  hasVarGQKey : Bool

/-- Mutable state of a `ComplexSV` object. -/
structure CpxState where
  records : List VRecord
  vcf_record : VRecord
  cluster_type : String
  svtype : String
  cpx_type : String
deriving DecidableEq

/-- Partition of the cluster members built by `organize_records`. -/
structure Partition where
  inversions : List VRecord
  tlocs : List VRecord
  breakends : List VRecord
  insertions : List VRecord
  cnvs : List VRecord
deriving DecidableEq

/-- Embedding of `ComplexSV.organize_records`. -/
def organize_records (records : List VRecord) : Partition :=
  { inversions := records.filter (fun r => r.svtypeInfo == "INV")
    tlocs := records.filter (fun r => r.chrom != r.chr2)
    breakends := records.filter (fun r => r.chrom == r.chr2 && r.svtypeInfo == "BND")
    insertions := records.filter (fun r => r.svtypeInfo == "INS")
    cnvs := records.filter (fun r => r.svtypeInfo == "DEL" || r.svtypeInfo == "DUP") }

/-- Predicate `_is_SR_only` from `remove_SR_only_breakpoints`: the EVIDENCE
INFO equals the one-element tuple `("SR",)`. -/
def _is_SR_only (record : VRecord) : Bool := record.evidenceInfo == some ["SR"]

/-- Embedding of `ComplexSV.remove_SR_only_breakpoints`. -/
def remove_SR_only_breakpoints (hasEvidenceKey : Bool) (records : List VRecord) :
    List VRecord :=
  if hasEvidenceKey then
    let clean_records := records.filter (fun r => !(_is_SR_only r))
    if clean_records.length > 0 then clean_records else records
  else records

/-- Embedding of `ok_tloc_strands`: sorts the two strand strings and checks
for a complementary pairing. -/
def ok_tloc_strands (tloc1 tloc2 : VRecord) : Bool :=
  match sortStrs [tloc1.strands, tloc2.strands] with
  | [strand1, strand2] =>
    (strand1 == "++" && strand2 == "--") || (strand1 == "+-" && strand2 == "-+")
  | _ => false

/-- Embedding of `ok_ins_strands`. -/
def ok_ins_strands (bnd1 bnd2 : VRecord) : Bool :=
  match sortStrs [bnd1.strands, bnd2.strands] with
  | [strand1, strand2] => strand1 == "+-" && strand2 == "-+"
  | _ => false

/-- Python equality between a list and an integer: operands of different
types are never equal, so the comparison is constantly false.  Line 408 of
`complex_sv.py` reads `if(self.insertions) == 1`, comparing the list
itself, not its length, with `1`. -/
def pyListEqNat (_l : List VRecord) (_n : Nat) : Bool := false

/-- Embedding of `ComplexSV.set_cluster_type`.  The numpy bookkeeping is
translated literally: `paired` and `absent` are the per-class booleans,
the first branch requires `all(paired ^ absent)` and exactly one paired
class, and `np.where(paired)[0][0]` selects that class. -/
def set_cluster_type (p : Partition) : String :=
  let class_counts : List Nat :=
    [p.inversions.length, p.tlocs.length, p.breakends.length, p.insertions.length]
  let paired := class_counts.map (fun c => c == 2)
  let absent := class_counts.map (fun c => c == 0)
  if (List.zipWith Bool.xor paired absent).all (fun b => b) && (paired.count true == 1) then
    if p.inversions.length == 2 then
      match p.inversions with
      | i0 :: i1 :: _ =>
        if i0.strands == i1.strands then "MATCHED_STRANDS" else "CANDIDATE_INVERSION"
      | _ => "ERROR_UNCLASSIFIED"
    else if p.tlocs.length == 2 then
      if p.cnvs.length > 0 then "TLOC_WITH_CNV"
      else
        match p.tlocs with
        | tl0 :: tl1 :: _ =>
          if ok_tloc_strands tl0 tl1 then "CANDIDATE_TRANSLOCATION" else "STRAND_MISMATCH_TLOC"
        | _ => "ERROR_UNCLASSIFIED"
    else if p.breakends.length == 2 then
      if p.cnvs.length > 0 then "INS_WITH_CNV"
      else
        match p.breakends with
        | bd0 :: bd1 :: _ =>
          if ok_ins_strands bd0 bd1 then "CANDIDATE_INSERTION" else "STRAND_MISMATCH_INS"
        | _ => "ERROR_UNCLASSIFIED"
    else if p.insertions.length == 2 then "MULTIPLE_RESOLVED_INSERTIONS"
    else "ERROR_UNCLASSIFIED"
  else if class_counts.sum == 0 then "ERROR_CNV_ONLY"
  else if class_counts.sum == 1 then
    if p.insertions.length == 1 then "RESOLVED_INSERTION" else "SINGLE_ENDER"
  else if class_counts.sum ≥ 2 then
    if pyListEqNat p.insertions 1 && p.breakends.length ≥ 1 then "RESOLVED_INSERTION"
    else "MIXED_BREAKENDS"
  else "ERROR_UNCLASSIFIED"

/-- Embedding of `ComplexSV.set_unresolved`. -/
def set_unresolved (st : CpxState) : CpxState :=
  { st with svtype := "UNR", cpx_type := st.cluster_type }

/-- Embedding of `make_inversion_intervals`.  The `cnvs` parameter is
unused by the Python function as well. -/
def make_inversion_intervals (FF RR : VRecord) (_cnvs : List VRecord)
    (cpx_type : String) : List String :=
  let chrom := FF.chrom
  (if strStarts cpx_type "del" then
      ["DEL_" ++ chrom ++ ":" ++ intStr FF.pos ++ "-" ++ intStr RR.pos] else []) ++
  (if strStarts cpx_type "dup" then
      ["DUP_" ++ chrom ++ ":" ++ intStr RR.pos ++ "-" ++ intStr FF.pos] else []) ++
  ["INV_" ++ chrom ++ ":" ++ intStr RR.pos ++ "-" ++ intStr FF.stop] ++
  (if strEnds cpx_type "del" then
      ["DEL_" ++ chrom ++ ":" ++ intStr FF.stop ++ "-" ++ intStr RR.stop] else []) ++
  (if strEnds cpx_type "dup" then
      ["DUP_" ++ chrom ++ ":" ++ intStr RR.stop ++ "-" ++ intStr FF.stop] else [])

/-- Field-write block of `ComplexSV.resolve_inversion` (lines 126-192):
the svtype determination and the branch-specific span, SVLEN,
CPX_INTERVALS and SOURCE writes on the synthesized record, followed by
the alt assignment.  The span block precedes the alt assignment exactly
as in the source.  Returns (svtype, cpx_type, record). -/
def inv_write (meiCheck : String → Int → Int → Bool) (v0 : VRecord)
    (FF RR : VRecord) (cnvs : List VRecord) (cpx_type0 : String) :
    String × String × VRecord :=
  let svtype :=
    if cpx_type0 == "INV" then "INV"
    else if cpx_type0 == "UNK" then "UNR"
    else if cpx_type0 == "COMPLEX_INS" then "UNR"
    else if strHas cpx_type0 "INS" then "INS"
    else "CPX"
  if svtype == "INV" || svtype == "CPX" || svtype == "UNR" then
    let v := ({ v0 with pos := min FF.pos RR.pos }).setStop (max FF.stop RR.stop)
    let v := { v with svlen := abs (v.stop - v.pos),
                      cpxIntervals := make_inversion_intervals FF RR cnvs cpx_type0 }
    let v := v.setAlts ["<" ++ svtype ++ ">"]
    let v := { v with svtypeInfo := svtype, cpxTypeInfo := some cpx_type0 }
    (svtype, cpx_type0, v)
  else if svtype == "INS" then
    let spans :=
      if cpx_type0 == "DUP5/INS3" then (RR.pos, FF.pos, FF.stop, RR.stop)
      else if cpx_type0 == "DUP3/INS5" then (RR.stop, FF.stop, FF.pos, RR.pos)
      else (0, 0, 0, 0)
    let source_start : Int := spans.1
    let source_end : Int := spans.2.1
    let sink_start : Int := spans.2.2.1
    let sink_end : Int := spans.2.2.2
    let is_mei := meiCheck v0.chrom source_start source_end
    let cpx_type1 :=
      if is_mei then "MEI_" ++ ((splitOnChar '/' cpx_type0).getD 1 "") else cpx_type0
    let v := ({ v0 with pos := sink_start }).setStop sink_end
    let v := { v with svlen := abs (source_end - source_start),
                      sourceInfo := some ("INV_" ++ v.chrom ++ ":" ++
                        intStr source_start ++ "-" ++ intStr source_end) }
    let v := v.setAlts ["<" ++ svtype ++ ">"]
    let v := { v with svtypeInfo := svtype, cpxTypeInfo := some cpx_type1 }
    (svtype, cpx_type1, v)
  else
    let v := v0.setAlts ["<" ++ svtype ++ ">"]
    let v := { v with svtypeInfo := svtype, cpxTypeInfo := some cpx_type0 }
    (svtype, cpx_type0, v)

/-- Embedding of `ComplexSV.resolve_inversion`, assembling the state from
the written fields of `inv_write` and the retained member records. -/
def resolve_inversion (P : CpxParams) (st : CpxState) (inversions cnvs : List VRecord) :
    Except String CpxState :=
  match inversions with
  | [i0, i1] =>
    let FFRR := if i0.strands == "++" then (i0, i1) else (i1, i0)
    let FF := FFRR.1
    let RR := FFRR.2
    let clsOut := P.classifyInv FF RR cnvs
    let w := inv_write P.meiCheck st.vcf_record FF RR cnvs clsOut.1
    Except.ok { st with records := [FF, RR] ++ clsOut.2, svtype := w.1,
                        cpx_type := w.2.1, vcf_record := w.2.2 }
  | _ => Except.error "ValueError"

/-- Dispatch block of `ComplexSV.resolve_translocation` (lines 202-226): from
the classification `cpx0`, the duplicate-coordinate test
`plus.pos == minus.pos and plus.stop == minus.stop` (`dup`), and the two arm
labels, it yields the `(svtype, cpx_type)` pair; the final `else` models the
`raise Exception("Invalid cpx type: ...")` guard. -/
def tloc_outcome (cpx0 : String) (dup : Bool) (armA armB : String) :
    Except String (String × String) :=
  if strHas cpx0 "INS" then Except.ok ("INS", cpx0)
  else if cpx0 == "TLOC_MISMATCH_CHROM" || cpx0 == "CTX_UNR" then Except.ok ("UNR", cpx0)
  else if cpx0 == "CTX_PP/QQ" then
    if dup then Except.ok ("UNR", cpx0 ++ "_DUPLICATE_COORDS")
    else if armA == armB then Except.ok ("CTX", cpx0)
    else Except.ok ("UNR", cpx0 ++ "_MISMATCH")
  else if cpx0 == "CTX_PQ/QP" then
    if dup then Except.ok ("UNR", cpx0 ++ "_DUPLICATE_COORDS")
    else if armA != armB then Except.ok ("CTX", cpx0)
    else Except.ok ("UNR", cpx0 ++ "_MISMATCH")
  else Except.error ("Invalid cpx type: " ++ cpx0)

/-- Record-write block of `ComplexSV.resolve_translocation` (lines 228-282):
the alt assignment (which clears END) followed by the branch-specific span
and INFO writes on the synthesized record. -/
def tloc_write (svtype cpx_type : String) (plus minus : VRecord) (vbase : VRecord) :
    VRecord :=
  let v0 := vbase.setAlts ["<" ++ svtype ++ ">"]
  let v0 := { v0 with svtypeInfo := svtype, cpxTypeInfo := some cpx_type }
  if svtype == "CTX" then
    let v1 := ({ v0 with chrom := plus.chrom, pos := plus.pos, chr2 := plus.chr2
               }).setStop plus.stop
    { v1 with svlen := -1 }
  else if svtype == "INS" then
    let chroms :=
      if strHas cpx_type "B2A" then (plus.chrom, plus.chr2) else (plus.chr2, plus.chrom)
    let sink_chrom := chroms.1
    let source_chrom := chroms.2
    let spans :=
      if cpx_type == "CTX_INS_B2A" then (plus.pos, minus.pos, plus.stop, minus.stop)
      else if cpx_type == "CTX_INV_INS_B2A" then (plus.pos, minus.pos, minus.stop, plus.stop)
      else if cpx_type == "CTX_INS_A2B" then (minus.stop, plus.stop, minus.pos, plus.pos)
      else if cpx_type == "CTX_INV_INS_A2B" then (plus.stop, minus.stop, minus.pos, plus.pos)
      else (0, 0, 0, 0)
    let sink_start : Int := spans.1
    let sink_end : Int := spans.2.1
    let source_start : Int := spans.2.2.1
    let source_end : Int := spans.2.2.2
    let v1 := ({ v0 with chrom := sink_chrom, pos := sink_start }).setStop sink_end
    let interval_type := if strHas cpx_type "INV" then "INV" else "INS"
    let source := interval_type ++ "_" ++ source_chrom ++ ":" ++
      intStr source_start ++ "-" ++ intStr source_end
    { v1 with chr2 := source_chrom, svlen := abs (source_end - source_start),
              sourceInfo := some source }
  else
    v0

/-- Embedding of `ComplexSV.resolve_translocation`.  The pair is ordered by
the strand string (Python `sorted` with a two-element list); the arm labels
come from the external cytoband lookup; the dispatch is `tloc_outcome` and
the record writes are `tloc_write`. -/
def resolve_translocation (cytobands : String → Int → String) (st : CpxState)
    (tlocs : List VRecord) : Except String CpxState :=
  match tlocs with
  | [t0, t1] =>
    let pm := if strLt t1.strands t0.strands then (t1, t0) else (t0, t1)
    let plus := pm.1
    let minus := pm.2
    let armA := cytobands plus.chrom plus.pos
    let armB := cytobands plus.chr2 plus.stop
    let cpx0 := classify_simple_translocation plus minus 50
    match tloc_outcome cpx0 (plus.pos == minus.pos && plus.stop == minus.stop) armA armB with
    | Except.error e => Except.error e
    | Except.ok svct =>
      Except.ok { st with svtype := svct.1, cpx_type := svct.2,
                          vcf_record := tloc_write svct.1 svct.2 plus minus st.vcf_record }
  | _ => Except.error "ValueError"

/-- Branch logic of `ComplexSV.resolve_insertion` after the strand
ordering: classification gate, sink/source computation, the
large-deletion rejection (whose `set_unresolved` sets the cpx type to the
cluster type), the record writes, and the provenance merge with a single
co-clustered insertion record.  Returns (svtype, cpx_type, record). -/
def ins_write (cpx_type cluster_type : String) (v0base : VRecord)
    (plus minus : VRecord) (insertions : List VRecord) : String × String × VRecord :=
  if cpx_type == "INS_UNCLASSIFIED" then ("UNR", cpx_type, v0base)
  else
    let svtype := "INS"
    let v0 := v0base.setAlts ["<" ++ svtype ++ ">"]
    let v0 := { v0 with svtypeInfo := svtype, cpxTypeInfo := some cpx_type }
    let sink_chrom := plus.chrom
    let source_chrom := plus.chrom
    let spans :=
      if cpx_type == "INS_B2A" then (plus.pos, minus.pos, plus.stop, minus.stop)
      else if cpx_type == "INS_A2B" then (minus.stop, plus.stop, minus.pos, plus.pos)
      else (0, 0, 0, 0)
    let sink_start : Int := spans.1
    let sink_end : Int := spans.2.1
    let source_start : Int := spans.2.2.1
    let source_end : Int := spans.2.2.2
    if sink_end - sink_start ≥ 100 then ("UNR", cluster_type, v0)
    else
      let v1 := ({ v0 with chrom := sink_chrom, pos := sink_start }).setStop sink_end
      let source := "INS_" ++ source_chrom ++ ":" ++
        intStr source_start ++ "-" ++ intStr source_end
      let v1 := { v1 with chr2 := source_chrom, svlen := abs (source_end - source_start),
                          sourceInfo := some source }
      match insertions with
      | [ins0] =>
        let algs := sorted_set (v1.algorithms ++ ins0.algorithms)
        (svtype, cpx_type, { ins0 with algorithms := algs })
      | _ => (svtype, cpx_type, v1)

/-- Embedding of `ComplexSV.resolve_insertion`.  `classifyIns` stands for
the `classify_insertion` helper, which is not among the sources; the pair
is ordered by strand string and the branch logic is `ins_write`. -/
def resolve_insertion (classifyIns : VRecord → VRecord → String) (st : CpxState)
    (breakends insertions : List VRecord) : Except String CpxState :=
  match breakends with
  | [b0, b1] =>
    let pm := if strLt b1.strands b0.strands then (b1, b0) else (b0, b1)
    let w := ins_write (classifyIns pm.1 pm.2) st.cluster_type st.vcf_record
      pm.1 pm.2 insertions
    Except.ok { st with svtype := w.1, cpx_type := w.2.1, vcf_record := w.2.2 }
  | _ => Except.error "ValueError"

/-- Embedding of `ComplexSV.report_simple_insertion`. -/
def report_simple_insertion (st : CpxState) (p : Partition) : Except String CpxState :=
  if p.breakends.length > 0 && p.cnvs.length == 0 then
    match p.insertions with
    | record :: _ =>
      match record.alts with
      | a0 :: _ =>
        let cpx_type := pyStripAngles a0
        let v := st.vcf_record.setAlts record.alts
        let v := { v with svtypeInfo := "INS", cpxTypeInfo := some cpx_type,
                          chr2 := record.chr2, svlen := record.svlen }
        Except.ok { st with svtype := "INS", cpx_type := cpx_type, vcf_record := v }
      | [] => Except.error "IndexError"
    | [] => Except.error "IndexError"
  else if p.cnvs.length == 1 && p.breakends.length == 0 then
    match p.cnvs with
    | cnv0 :: _ =>
      if cnv0.svtypeInfo == "DUP" then
        let v := st.vcf_record.setAlts cnv0.alts
        let v := { v with svtypeInfo := "DUP", chr2 := cnv0.chr2, svlen := cnv0.svlen }
        Except.ok { st with svtype := "DUP", vcf_record := v }
      else Except.ok (set_unresolved st)
    | [] => Except.error "IndexError"
  else Except.ok (set_unresolved st)

/-- One classification pass of `ComplexSV.resolve`: organize the records,
set the cluster type, and dispatch to the matching resolver.  `none`
signals that no candidate branch matched. -/
def resolve_pass (P : CpxParams) (records : List VRecord) (vcf_record : VRecord) :
    Except String (Option CpxState) :=
  let p := organize_records records
  let ct := set_cluster_type p
  let st : CpxState := ⟨records, vcf_record, ct, "", ""⟩
  if ct == "CANDIDATE_INVERSION" then (resolve_inversion P st p.inversions p.cnvs).map some
  else if ct == "CANDIDATE_TRANSLOCATION" then
    (resolve_translocation P.cytobands st p.tlocs).map some
  else if ct == "CANDIDATE_INSERTION" then
    (resolve_insertion P.classifyIns st p.breakends p.insertions).map some
  else if ct == "RESOLVED_INSERTION" then (report_simple_insertion st p).map some
  else Except.ok none

/-- Embedding of `ComplexSV.resolve`: one pass, then a single retry after
dropping split-read-only members, then `set_unresolved`. -/
def ComplexSV_resolve (P : CpxParams) (records : List VRecord) (vcf_record : VRecord) :
    Except String CpxState := do
  match ← resolve_pass P records vcf_record with
  | some st => return st
  | none =>
    let records2 := remove_SR_only_breakpoints P.hasEvidenceKey records
    match ← resolve_pass P records2 vcf_record with
    | some st => return st
    | none =>
      return set_unresolved ⟨records2, vcf_record,
        set_cluster_type (organize_records records2), "", ""⟩

/-- Embedding of `ComplexSV.clean_record`: merge the algorithm sets, set
the sorted member-id list, and propagate the maximum `varGQ`. -/
def clean_record (hasVarGQKey : Bool) (st : CpxState) : CpxState :=
  let sources := sorted_set (st.records.map (fun r => r.algorithms)).flatten
  let members := sortStrs (st.records.map (fun r => r.id))
  let varGQs := st.records.filterMap (fun r => r.varGQ)
  let v := { st.vcf_record with algorithms := sources, membersInfo := members }
  let v :=
    match varGQs with
    | [] => v
    | g :: gs => if hasVarGQKey then { v with varGQ := some (listMax g gs) } else v
  { st with vcf_record := v }

/-- Embedding of the `ComplexSV` constructor: `make_record` copies the
first member (the genotype merge `update_best_genotypes` touches only
genotype fields, which are outside this model), `resolve` classifies, and
`clean_record` finalizes the metadata.  An empty cluster raises. -/
def makeComplexSV (P : CpxParams) (records : List VRecord) : Except String CpxState :=
  match records with
  | [] => Except.error "IndexError"
  | r0 :: _ => (ComplexSV_resolve P records r0).map (clean_record P.hasVarGQKey)

/-! ### The resolve loop (`svtk/cli/resolve.py`, `resolve_complex_sv`)

The loop consumes the clusters produced by `link_cpx` (clustering is an
external collaborator here; the cluster list is an input).  Besides the
`ComplexSV` parameters it needs the single-ender rescue (whose result the
caller unpacks as a pair of records), and a source of fresh id suffixes
modelling the random strings the code appends to `variant_prefix` and to
`UNRESOLVED_`; both are passed as functions. -/

/-- Context of one `resolve_complex_sv` run. -/
structure ResolveCtx where
  P : CpxParams
  rescanFn : VRecord → Option (VRecord × VRecord)
  freshId : Nat → String
  variantPfx : String

/-- Rescue step of the cluster loop (`resolve.py` lines 131-137): a
singleton inversion cluster is rescanned; on success the cluster becomes
the returned record together with its synthesized opposite. -/
def rescuedCluster (rescanFn : VRecord → Option (VRecord × VRecord))
    (cluster : List VRecord) : List VRecord :=
  match cluster with
  | [r] =>
    if r.svtypeInfo == "INV" then
      match rescanFn r with
      | some recOpp => [recOpp.1, recOpp.2]
      | none => [r]
    else [r]
  | _ => cluster

/-- Per-record handling of an all-insertion cluster (`resolve.py` lines
140-148): each insertion is resolved on its own and emitted with a fresh
prefixed id. -/
def processInsCluster (C : ResolveCtx) :
    Nat → List VRecord → Except String (List VRecord × List String × Nat)
  | n, [] => Except.ok ([], [], n)
  | n, r :: rs => do
    let st ← makeComplexSV C.P [r]
    let out ← processInsCluster C (n + 1) rs
    Except.ok (({ st.vcf_record with id := C.variantPfx ++ C.freshId n }) :: out.1,
      (st.records.map (fun x => x.id)) ++ out.2.1, out.2.2)

/-- Handling of one cluster in `resolve_complex_sv` (lines 130-167):
rescue, the all-insertion special case, and otherwise one `ComplexSV`
whose outcome is either the synthesized record (resolved) or the member
records flagged `UNRESOLVED` and grouped under a fresh `EVENT` id.
Returns the emitted queue records, the consumed ids, and the updated
fresh-id counter. -/
def processCluster (C : ResolveCtx) (n : Nat) (cluster0 : List VRecord) :
    Except String (List VRecord × List String × Nat) :=
  let cluster := rescuedCluster C.rescanFn cluster0
  if cluster.all (fun r => r.svtypeInfo == "INS") then
    processInsCluster C n cluster
  else do
    let st ← makeComplexSV C.P cluster
    let consumed := st.records.map (fun r => r.id)
    if st.svtype == "UNR" then
      let unresolved_vid := "UNRESOLVED_" ++ C.freshId n
      Except.ok (st.records.map (fun r =>
        { r with eventInfo := some unresolved_vid, cpxTypeInfo := some st.cpx_type,
                 unresolvedFlag := true }), consumed, n + 1)
    else
      Except.ok ([{ st.vcf_record with id := C.variantPfx ++ C.freshId n }], consumed, n + 1)

/-- The cluster loop of `resolve_complex_sv`: accumulates the queue of
synthesized records (`cpx_records`) and the consumed ids
(`cpx_record_ids`). -/
def resolveLoop (C : ResolveCtx) :
    List (List VRecord) → Nat → Except String (List VRecord × List String)
  | [], _ => Except.ok ([], [])
  | cl :: cls, n => do
    let out1 ← processCluster C n cl
    let out2 ← resolveLoop C cls out1.2.2
    Except.ok (out1.1 ++ out2.1, out1.2.1 ++ out2.2)

/-! ### Stream reconciliation (`resolve.py`, `_merge_records`) -/

/-- Modelled from the spec: chromosome ordering is governed by an external
contig-rank table, not lexical string order (`svu.is_smaller_chrom`); the
table is passed as a rank function. -/
def is_smaller_chrom (rank : String → Nat) (chromA chromB : String) : Bool :=
  decide (rank chromA < rank chromB)

/-- Core of `_merge_records`.  The generator state (`curr_record`, rest of
`vcf`) and (`curr_cpx`, rest of `cpx_records`) is represented as the two
lists with the current element at the head; `_next_record` / `_next_cpx`
are the head/tail decompositions.  The first equation is the main loop,
the second the `curr_record is None` drain (which yields
`chain([curr_cpx], cpx_records)`), the third the `curr_cpx is None` drain
(which keeps filtering consumed ids). -/
def mergeLists (rank : String → Nat) (ids : List String) :
    List VRecord → List VRecord → List (Option VRecord)
  | r :: vcf, c :: cpx =>
    if ids.contains r.id then mergeLists rank ids vcf (c :: cpx)
    else if r.chrom == c.chrom then
      if r.pos ≤ c.pos then some r :: mergeLists rank ids vcf (c :: cpx)
      else some c :: mergeLists rank ids (r :: vcf) cpx
    else if is_smaller_chrom rank r.chrom c.chrom then
      some r :: mergeLists rank ids vcf (c :: cpx)
    else some c :: mergeLists rank ids (r :: vcf) cpx
  | [], cpx => cpx.map some
  | vcf@(_ :: _), [] => (vcf.filter (fun x => !(ids.contains x.id))).map some
termination_by vcf cpx => vcf.length + cpx.length

/-- Embedding of `_merge_records(vcf, cpx_records, cpx_record_ids)`.  When
both sources are empty the generator still yields once: `curr_record` and
`curr_cpx` are both `None`, the `curr_record is None` drain runs, and
`chain([None], [])` yields the single element `None`. -/
def mergeRecords (rank : String → Nat) (ids : List String)
    (vcf cpx : List VRecord) : List (Option VRecord) :=
  match vcf, cpx with
  | [], [] => [none]
  | _, _ => mergeLists rank ids vcf cpx

/-- Field stripping applied to each merged record before emission
(`resolve.py` lines 172-181): `info.pop(key)` removes the key and raises
`KeyError` when the key is absent.  The CIPOS/CIEND/RMSSTD pops are
presence-guarded in the source, but the STRANDS pop is guarded only by the
CPX_TYPE-present / UNRESOLVED-absent tests, so it raises on a record whose
STRANDS entry is already gone. -/
def postProcess (r : VRecord) : Except String VRecord :=
  match (if r.cpxTypeInfo.isSome && !r.unresolvedFlag then
          (if r.strandsInfo.isSome then Except.ok { r with strandsInfo := none }
           else Except.error "KeyError")
         else Except.ok r : Except String VRecord) with
  | Except.error e => Except.error e
  | Except.ok r1 =>
    let r2 := if r1.cipos.isSome then { r1 with cipos := none } else r1
    let r3 := if r2.ciend.isSome then { r2 with ciend := none } else r2
    Except.ok (if r3.rmsstd.isSome then { r3 with rmsstd := none } else r3)

/-- Sequential application of the per-record stripping to the emitted
stream; the first `KeyError` aborts the generator loop. -/
def postAll : List VRecord → Except String (List VRecord)
  | [] => Except.ok []
  | r :: rs =>
    match postProcess r with
    | Except.error e => Except.error e
    | Except.ok v =>
      match postAll rs with
      | Except.error e => Except.error e
      | Except.ok vs => Except.ok (v :: vs)

/-- The reconciliation stage of `resolve_complex_sv` (lines 169-182): the
merged stream with the per-record field stripping; the emitted records are
the non-null yields of the generator, and a `KeyError` from the unguarded
STRANDS pop aborts the run. -/
def reconcile (rank : String → Nat) (ids : List String)
    (vcf cpx : List VRecord) : Except String (List VRecord) :=
  postAll ((mergeRecords rank ids vcf cpx).filterMap id)

/-! ### Single-ender rescue (`svtk/cxsv/rescan_single_enders.py`)

Discordant pairs are modelled by `DiscPair`.  The pair fetch against the
indexed evidence source and the `GenomeSLINK` clustering primitive are
external to the sources under verification; the fetched pairs are an input
and the clustering is a function parameter. -/

/-- One scraped discordant pair. -/
structure DiscPair where
  chrA : String
  posA : Int
  strandA : String
  chrB : String
  posB : Int
  strandB : String
  sample : String
deriving DecidableEq

/-- Embedding of `DiscPair.is_inversion`. -/
def DiscPair.is_inversion (p : DiscPair) : Bool :=
  p.chrA == p.chrB && p.strandA == p.strandB

/-- Embedding of `match_cluster(record, cluster, dist)`.  Python `max` and
`min` raise on empty sequences and the final `else` raises on an invalid
strand pair; both are modelled as errors. -/
def match_cluster (record : VRecord) (cluster : List DiscPair) (dist : Int) :
    Except String Bool :=
  let r_start := record.pos
  let r_end := record.stop
  if record.strands == "++" then
    if !(cluster.any (fun p => p.strandA == "+")) then Except.ok false
    else do
      let c_start ← maxOfList ((cluster.filter (fun p => p.strandA == "+")).map
        (fun p => p.posA))
      let c_end ← maxOfList ((cluster.filter (fun p => p.strandB == "+")).map
        (fun p => p.posB))
      Except.ok (decide (abs (r_start - c_start) < dist) &&
        decide (abs (r_end - c_end) < dist))
  else if record.strands == "--" then
    if !(cluster.any (fun p => p.strandA == "-")) then Except.ok false
    else do
      let c_start ← minOfList ((cluster.filter (fun p => p.strandA == "-")).map
        (fun p => p.posA))
      let c_end ← minOfList ((cluster.filter (fun p => p.strandB == "-")).map
        (fun p => p.posB))
      Except.ok (decide (abs (r_start - c_start) < dist) &&
        decide (abs (r_end - c_end) < dist))
  else Except.error ("Invalid inversion orientation: " ++ record.strands)

/-- Embedding of `make_new_record(pairs, old_record)`; `pairs[0]` raises on
an empty list. -/
def make_new_record (pairs : List DiscPair) (old_record : VRecord) :
    Except String VRecord :=
  match pairs with
  | [] => Except.error "IndexError"
  | p0 :: rest =>
    let record := { old_record with id := old_record.id ++ "_OPPSTRAND" }
    if p0.strandA == "+" then
      let record := ({ record with pos := listMax p0.posA (rest.map (fun p : DiscPair => p.posA)),
                                   strandsInfo := some "++"
                     }).setStop (listMax p0.posB (rest.map (fun p : DiscPair => p.posB)))
      Except.ok { record with svlen := record.stop - record.pos, algorithms := ["rescan"] }
    else
      let record := ({ record with pos := listMin p0.posA (rest.map (fun p : DiscPair => p.posA)),
                                   strandsInfo := some "--"
                     }).setStop (listMin p0.posB (rest.map (fun p : DiscPair => p.posB)))
      Except.ok { record with svlen := record.stop - record.pos, algorithms := ["rescan"] }

/-- Monadic filter mirroring the Python list comprehension
`[c for c in clusters if match_cluster(...)]`: the predicate may raise. -/
def exceptFilter (f : List DiscPair → Except String Bool) :
    List (List DiscPair) → Except String (List (List DiscPair))
  | [] => Except.ok []
  | x :: xs => do
    let b ← f x
    let rest ← exceptFilter f xs
    Except.ok (if b then x :: rest else rest)

/-- Python `max(clusters, key=len)`: the first cluster of maximal length. -/
def maxByLen (c0 : List DiscPair) (cs : List (List DiscPair)) : List DiscPair :=
  cs.foldl (fun acc x => if x.length > acc.length then x else acc) c0

/-- Embedding of `rescan_single_ender` from the pair filter onward.  The
tabix fetch is modelled by the `pairs` input; `slink` models
`GenomeSLINK(pairs, dist).cluster()`, the external clustering primitive of
the spec (single-linkage connected components).  The sample-fraction test
uses exact rational arithmetic in place of Python float division. -/
def rescan_single_ender
    (slink : List DiscPair → Int → List (List DiscPair))
    (record : VRecord) (pairs : List DiscPair)
    (window dist : Int) (min_support : Nat) (min_frac_samples : ℚ) :
    Except String (Option VRecord) := do
  let called := record.calledSamples
  let pairs2 := pairs.filter (fun p => called.contains p.sample && p.is_inversion)
  let clusters0 := slink pairs2 dist
  let clusters ← exceptFilter (fun c => match_cluster record c window) clusters0
  match clusters with
  | [] => Except.ok none
  | c0 :: cs =>
    let cluster := maxByLen c0 cs
    let missing_strand := if record.strands == "--" then "+" else "-"
    let supporting_pairs := cluster.filter (fun p => p.strandA == missing_strand)
    let n_supported_samples := (called.filter (fun s =>
      min_support ≤ (supporting_pairs.filter (fun p => p.sample == s)).length)).length
    if called.length == 0 then Except.error "ZeroDivisionError"
    else if (n_supported_samples : ℚ) / (called.length : ℚ) ≥ min_frac_samples then do
      let r ← make_new_record supporting_pairs record
      Except.ok (some r)
    else Except.ok none

/-! ### Concrete fixtures

Small concrete records used by the counterexamples and witnesses below. -/

/-- Template record with neutral field values. -/
def baseRec : VRecord :=
  { id := "r", chrom := "chr1", pos := 0, endInfo := some 1, alts := ["N"],
    svtypeInfo := "BND", chr2 := "chr1", strandsInfo := some "+-",
    algorithms := ["manta"], membersInfo := [], evidenceInfo := none, svlen := 0,
    cpxTypeInfo := none, cpxIntervals := [], sourceInfo := none, eventInfo := none,
    unresolvedFlag := false, varGQ := none, calledSamples := [], cipos := none,
    ciend := none, rmsstd := none }

/-- Insertion record for the C3 failing input. -/
def c3ins : VRecord := { baseRec with id := "ins1", svtypeInfo := "INS" }

/-- Same-chromosome breakend record for the C3 failing input. -/
def c3bnd : VRecord := { baseRec with id := "bnd1", svtypeInfo := "BND" }

/-- Forward-forward inversion breakpoint for the C4 failing input. -/
def c4FF : VRecord :=
  { baseRec with id := "ff", svtypeInfo := "INV", strandsInfo := some "++",
                 pos := 100, endInfo := some 200 }

/-- Reverse-reverse inversion breakpoint for the C4 failing input. -/
def c4RR : VRecord :=
  { baseRec with id := "rr", svtypeInfo := "INV", strandsInfo := some "--",
                 pos := 150, endInfo := some 250 }

/-- Classifier parameters used by concrete runs: the inversion classifier
reports a pure inversion and keeps all CNVs (the behaviour of
`classify_complex_inversion` on an FF/RR pair with no CNVs), the insertion
classifier reports `INS_B2A`, and the cytoband lookup returns one arm. -/
def cParams : CpxParams :=
  { classifyInv := fun _ _ cnvs => ("INV", cnvs),
    classifyIns := fun _ _ => "INS_B2A",
    cytobands := fun _ _ => "p",
    meiCheck := fun _ _ _ => false,
    hasEvidenceKey := false, hasVarGQKey := false }

/-- Number of emitted records whose MEMBERS list holds the id `s`. -/
def memCount (q : List VRecord) (s : String) : Nat :=
  q.countP (fun r => decide (s ∈ r.membersInfo))

/-- Matched-strands partner of `c4FF` for the C1 counterexample: both
inversion breakpoints read `++`, so the cluster type is MATCHED_STRANDS and
resolution falls through to `set_unresolved`. -/
def c1MRR : VRecord :=
  { baseRec with id := "rr", svtypeInfo := "INV", strandsInfo := some "++",
                 pos := 150, endInfo := some 250 }

/-- Context of the concrete `resolve_complex_sv` runs: no single-ender
rescue, a constant fresh-id source, and the default variant prefix. -/
def c1ctx : ResolveCtx :=
  { P := cParams, rescanFn := fun _ => none, freshId := fun _ => "X",
    variantPfx := "CPX_" }

/-- Output of the concrete unresolved run: one matched-strands inversion
pair cluster. -/
def c1urun : List VRecord × List String :=
  ((resolveLoop c1ctx [[c4FF, c1MRR]] 0).toOption).getD ([], [])

/-- Output of the concrete resolved run: one candidate-inversion pair
cluster. -/
def c1wrun : List VRecord × List String :=
  ((resolveLoop c1ctx [[c4FF, c4RR]] 0).toOption).getD ([], [])

/-- Resolved complex record for the C9 counterexample: CPX_TYPE is set, the
UNRESOLVED flag is not, and STRANDS is present, exactly as `ComplexSV`
emits a resolved cluster. -/
def c9res : VRecord := { baseRec with id := "cpx1", cpxTypeInfo := some "delINV" }

/-- Unresolved-flagged record for the C9 witness. -/
def c9unr : VRecord :=
  { baseRec with id := "unr1", cpxTypeInfo := some "MATCHED_STRANDS",
                 unresolvedFlag := true }

/-- Output of the first reconciliation run over the resolved complex
record: STRANDS has been popped. -/
def c9out : List VRecord := [{ c9res with strandsInfo := none }]

/-- Output of the first reconciliation run over the unresolved record: the
STRANDS pop does not fire and nothing else is present to strip. -/
def c9wout : List VRecord := [c9unr]

/-! ### Theorems -/

/-- C10: when both the original record stream and the synthesized-record
queue are empty, `_merge_records` yields exactly one element whose value is
`None`, rather than yielding an empty stream: both `curr_record` and
`curr_cpx` start as `None`, the record-side drain runs, and
`chain([curr_cpx], cpx_records)` yields the single `None`. -/
theorem merge_records_empty_empty_yields_none (rank : String → Nat) (ids : List String) :
    mergeRecords rank ids [] [] = [none] := rfl

/-- C3: on a cluster of one insertion plus one same-chromosome breakend
(partition counts total 2, no partition paired), `set_cluster_type`
assigns `MIXED_BREAKENDS`, not `RESOLVED_INSERTION`: the guard on line 408
of `complex_sv.py` reads `if(self.insertions) == 1`, comparing the list
itself rather than its length with `1`, which is always false, so the
lone-insertion-plus-breakend arm is unreachable. -/
theorem set_cluster_type_ins_bnd_mixed :
    (organize_records [c3ins, c3bnd]).insertions.length = 1 ∧
    (organize_records [c3ins, c3bnd]).breakends.length = 1 ∧
    set_cluster_type (organize_records [c3ins, c3bnd]) = "MIXED_BREAKENDS" := by
  refine ⟨rfl, rfl, ?_⟩
  rfl

/-- C4: in `resolve_inversion` the span block precedes the alt-allele
assignment, so the end-clearing side effect of setting the alts erases the
computed stop: on the C4 fixture the branch computes
`stop = max(FF.stop, RR.stop) = 250`, but the emitted record has its END
field cleared and reports the position-derived fallback `101`. -/
theorem resolve_inversion_stop_erased :
    (resolve_inversion cParams ⟨[c4FF, c4RR], c4FF, "CANDIDATE_INVERSION", "", ""⟩
        [c4FF, c4RR] []).map
      (fun st => (st.svtype, st.vcf_record.pos, st.vcf_record.endInfo, st.vcf_record.stop)) =
      Except.ok ("INV", 100, none, 101) ∧
    max c4FF.stop c4RR.stop = 250 := by
  constructor
  · rfl
  · rfl

/-- C8: for a candidate-insertion breakend pair classified `INS_B2A` or
`INS_A2B`, `resolve_insertion` routes the cluster to unresolved exactly
when the acceptor (sink) span is at least 100 bp, and classifies it as an
insertion otherwise; no strand condition is consulted.  The pair is
ordered by strand string, and the sink interval is the one the branch for
the classified direction computes. -/
theorem resolve_insertion_span_gate (classifyIns : VRecord → VRecord → String)
    (st : CpxState) (b0 b1 : VRecord) (insertions : List VRecord)
    (plus minus : VRecord) (cpx : String) (sink_start sink_end : Int)
    (hpm : (if strLt b1.strands b0.strands then (b1, b0) else (b0, b1)) = (plus, minus))
    (hcpx : classifyIns plus minus = cpx)
    (hin : cpx = "INS_B2A" ∨ cpx = "INS_A2B")
    (hsink : (if cpx = "INS_B2A" then (plus.pos, minus.pos) else (minus.stop, plus.stop)) =
      (sink_start, sink_end)) :
    ∃ st', resolve_insertion classifyIns st [b0, b1] insertions = Except.ok st' ∧
      st'.svtype = (if sink_end - sink_start ≥ 100 then "UNR" else "INS") := by
  rcases hin with h | h <;> subst h <;>
    simp at hsink <;>
    obtain ⟨hs1, hs2⟩ := hsink <;> subst hs1 <;> subst hs2 <;>
    simp only [resolve_insertion, hpm, hcpx, ins_write] <;>
    split_ifs <;>
    rcases insertions with _ | ⟨i0, _ | ⟨i1, rest⟩⟩ <;>
    exact ⟨_, rfl, by simp_all⟩

/-- Breakend of the C8 witness: plus-side record. -/
def c8b0 : VRecord :=
  { baseRec with id := "p", strandsInfo := some "+-", pos := 1000, endInfo := some 5000 }

/-- Breakend of the C8 witness: minus-side record. -/
def c8b1 : VRecord :=
  { baseRec with id := "m", strandsInfo := some "-+", pos := 1150, endInfo := some 5100 }

/-- Witness for C8: a concrete `INS_B2A` pair whose sink span is 150 bp, so
the result is unresolved. -/
theorem resolve_insertion_span_gate_witness :
    ∃ st', resolve_insertion (fun _ _ => "INS_B2A")
        ⟨[c8b0, c8b1], c8b0, "CANDIDATE_INSERTION", "", ""⟩ [c8b0, c8b1] [] =
        Except.ok st' ∧
      st'.svtype = (if (1150 : Int) - 1000 ≥ 100 then "UNR" else "INS") :=
  resolve_insertion_span_gate (fun _ _ => "INS_B2A")
    ⟨[c8b0, c8b1], c8b0, "CANDIDATE_INSERTION", "", ""⟩ c8b0 c8b1 [] c8b0 c8b1
    "INS_B2A" 1000 1150 (by decide) rfl (Or.inl rfl) (by decide)

/-- Helper: the translocation classifier returns one of the eight labels. -/
theorem classify_tloc_mem_eight (plus minus : VRecord) (mh : Int) :
    classify_simple_translocation plus minus mh ∈
      (["TLOC_MISMATCH_CHROM", "CTX_PP/QQ", "CTX_PQ/QP", "CTX_INS_B2A", "CTX_INS_A2B",
        "CTX_INV_INS_B2A", "CTX_INV_INS_A2B", "CTX_UNR"] : List String) := by
  unfold classify_simple_translocation
  simp only [List.mem_cons, List.not_mem_nil, or_false]
  split_ifs <;> simp

/-- Helper: on each of the eight classifier labels the dispatch of
`resolve_translocation` yields a result, so its raise guard is
unreachable. -/
theorem tloc_outcome_ok (cpx0 : String) (dup : Bool) (armA armB : String)
    (hm : cpx0 ∈ (["TLOC_MISMATCH_CHROM", "CTX_PP/QQ", "CTX_PQ/QP", "CTX_INS_B2A",
      "CTX_INS_A2B", "CTX_INV_INS_B2A", "CTX_INV_INS_A2B", "CTX_UNR"] : List String)) :
    ∃ p, tloc_outcome cpx0 dup armA armB = Except.ok p := by
  simp only [List.mem_cons, List.not_mem_nil, or_false] at hm
  rcases hm with h | h | h | h | h | h | h | h <;> subst h
  · exact ⟨_, rfl⟩
  · simp [tloc_outcome, show strHas "CTX_PP/QQ" "INS" = false from by decide]
    split_ifs <;> exact ⟨_, _, rfl⟩
  · simp [tloc_outcome, show strHas "CTX_PQ/QP" "INS" = false from by decide]
    split_ifs <;> exact ⟨_, _, rfl⟩
  · exact ⟨_, rfl⟩
  · exact ⟨_, rfl⟩
  · exact ⟨_, rfl⟩
  · exact ⟨_, rfl⟩
  · exact ⟨_, rfl⟩

/-- Helper: `resolve_translocation` on a pair always returns a state and
never reaches the `Invalid cpx type` raise. -/
theorem tloc_no_raise (cyto : String → Int → String) (st : CpxState) (t0 t1 : VRecord) :
    ∃ st', resolve_translocation cyto st [t0, t1] = Except.ok st' := by
  simp only [resolve_translocation]
  obtain ⟨p, hp⟩ := tloc_outcome_ok
    (classify_simple_translocation
      (if strLt t1.strands t0.strands then (t1, t0) else (t0, t1)).1
      (if strLt t1.strands t0.strands then (t1, t0) else (t0, t1)).2 50)
    ((if strLt t1.strands t0.strands then (t1, t0) else (t0, t1)).1.pos ==
        (if strLt t1.strands t0.strands then (t1, t0) else (t0, t1)).2.pos &&
      (if strLt t1.strands t0.strands then (t1, t0) else (t0, t1)).1.stop ==
        (if strLt t1.strands t0.strands then (t1, t0) else (t0, t1)).2.stop)
    (cyto (if strLt t1.strands t0.strands then (t1, t0) else (t0, t1)).1.chrom
      (if strLt t1.strands t0.strands then (t1, t0) else (t0, t1)).1.pos)
    (cyto (if strLt t1.strands t0.strands then (t1, t0) else (t0, t1)).1.chr2
      (if strLt t1.strands t0.strands then (t1, t0) else (t0, t1)).1.stop)
    (classify_tloc_mem_eight _ _ _)
  rw [hp]
  exact ⟨_, rfl⟩

/-- C5: `classify_simple_translocation` always returns one of the eight
labels `TLOC_MISMATCH_CHROM`, `CTX_PP/QQ`, `CTX_PQ/QP`, `CTX_INS_B2A`,
`CTX_INS_A2B`, `CTX_INV_INS_B2A`, `CTX_INV_INS_A2B`, `CTX_UNR`, and
consequently the fatal `Invalid cpx type` raise in
`resolve_translocation` is unreachable: on every pair the function
returns a state rather than the error of that guard. -/
theorem tloc_classifier_total_guard_unreachable (plus minus : VRecord) (mh : Int)
    (cyto : String → Int → String) (st : CpxState) (t0 t1 : VRecord) :
    classify_simple_translocation plus minus mh ∈
      (["TLOC_MISMATCH_CHROM", "CTX_PP/QQ", "CTX_PQ/QP", "CTX_INS_B2A", "CTX_INS_A2B",
        "CTX_INV_INS_B2A", "CTX_INV_INS_A2B", "CTX_UNR"] : List String) ∧
    ∃ st', resolve_translocation cyto st [t0, t1] = Except.ok st' :=
  ⟨classify_tloc_mem_eight plus minus mh, tloc_no_raise cyto st t0 t1⟩

/-- C6: for a candidate pair classified `CTX_PP/QQ` or `CTX_PQ/QP`,
coordinate-identical breakends are rejected with the
`_DUPLICATE_COORDS` suffix; otherwise the event is accepted as `CTX`
exactly when the two arm labels match the declared orientation (equal
arms for `CTX_PP/QQ`, different arms for `CTX_PQ/QP`), and rejected with
the `_MISMATCH` suffix otherwise.  Accepted events take `chrom`, `pos`,
`stop` and `CHR2` from the plus breakend and have `SVLEN = -1`. -/
theorem tloc_reciprocal_validation (cyto : String → Int → String) (st : CpxState)
    (t0 t1 plus minus : VRecord) (cls : String)
    (hpm : (if strLt t1.strands t0.strands then (t1, t0) else (t0, t1)) = (plus, minus))
    (hcls : classify_simple_translocation plus minus 50 = cls)
    (hrec : cls = "CTX_PP/QQ" ∨ cls = "CTX_PQ/QP") :
    ∃ st', resolve_translocation cyto st [t0, t1] = Except.ok st' ∧
      (if plus.pos == minus.pos && plus.stop == minus.stop then
         st'.svtype = "UNR" ∧ st'.cpx_type = cls ++ "_DUPLICATE_COORDS"
       else if (if cls = "CTX_PP/QQ" then
                  cyto plus.chrom plus.pos == cyto plus.chr2 plus.stop
                else cyto plus.chrom plus.pos != cyto plus.chr2 plus.stop) then
         st'.svtype = "CTX" ∧ st'.cpx_type = cls ∧
         st'.vcf_record.chrom = plus.chrom ∧ st'.vcf_record.pos = plus.pos ∧
         st'.vcf_record.stop = plus.stop ∧ st'.vcf_record.chr2 = plus.chr2 ∧
         st'.vcf_record.svlen = -1
       else st'.svtype = "UNR" ∧ st'.cpx_type = cls ++ "_MISMATCH") := by
  rcases hrec with h | h <;> subst h <;>
    simp only [resolve_translocation, hpm, hcls] <;>
    simp only [tloc_outcome, show strHas "CTX_PP/QQ" "INS" = false from by decide,
      show strHas "CTX_PQ/QP" "INS" = false from by decide,
      show ("CTX_PP/QQ" == "TLOC_MISMATCH_CHROM" || "CTX_PP/QQ" == "CTX_UNR") = false from
        by decide,
      show ("CTX_PQ/QP" == "TLOC_MISMATCH_CHROM" || "CTX_PQ/QP" == "CTX_UNR") = false from
        by decide,
      show ("CTX_PP/QQ" == "CTX_PP/QQ") = true from by decide,
      show ("CTX_PQ/QP" == "CTX_PP/QQ") = false from by decide,
      show ("CTX_PQ/QP" == "CTX_PQ/QP") = true from by decide,
      Bool.false_eq_true, if_false, if_true, reduceIte] <;>
    split_ifs <;>
    simp_all [tloc_write, VRecord.setStop, VRecord.setAlts, VRecord.stop]

/-- Plus-side translocation breakend of the C6 witness. -/
def c6t0 : VRecord :=
  { baseRec with id := "t1", chrom := "chr1", chr2 := "chr2", pos := 100,
                 endInfo := some 5000, strandsInfo := some "+-" }

/-- Minus-side translocation breakend of the C6 witness. -/
def c6t1 : VRecord :=
  { baseRec with id := "t2", chrom := "chr1", chr2 := "chr2", pos := 200,
                 endInfo := some 4000, strandsInfo := some "-+" }

/-- Witness for C6: a concrete `CTX_PP/QQ` pair with matching arms is
accepted as `CTX` with the plus-breakend span. -/
theorem tloc_reciprocal_validation_witness :
    ∃ st', resolve_translocation (fun _ _ => "p")
        ⟨[c6t0, c6t1], c6t0, "CANDIDATE_TRANSLOCATION", "", ""⟩ [c6t0, c6t1] =
        Except.ok st' ∧
      (if c6t0.pos == c6t1.pos && c6t0.stop == c6t1.stop then
         st'.svtype = "UNR" ∧ st'.cpx_type = "CTX_PP/QQ" ++ "_DUPLICATE_COORDS"
       else if (if "CTX_PP/QQ" = "CTX_PP/QQ" then
                  (fun (_ : String) (_ : Int) => "p") c6t0.chrom c6t0.pos ==
                    (fun (_ : String) (_ : Int) => "p") c6t0.chr2 c6t0.stop
                else (fun (_ : String) (_ : Int) => "p") c6t0.chrom c6t0.pos !=
                    (fun (_ : String) (_ : Int) => "p") c6t0.chr2 c6t0.stop) then
         st'.svtype = "CTX" ∧ st'.cpx_type = "CTX_PP/QQ" ∧
         st'.vcf_record.chrom = c6t0.chrom ∧ st'.vcf_record.pos = c6t0.pos ∧
         st'.vcf_record.stop = c6t0.stop ∧ st'.vcf_record.chr2 = c6t0.chr2 ∧
         st'.vcf_record.svlen = -1
       else st'.svtype = "UNR" ∧ st'.cpx_type = "CTX_PP/QQ" ++ "_MISMATCH") :=
  tloc_reciprocal_validation (fun _ _ => "p")
    ⟨[c6t0, c6t1], c6t0, "CANDIDATE_TRANSLOCATION", "", ""⟩ c6t0 c6t1 c6t0 c6t1
    "CTX_PP/QQ" (by decide) rfl (Or.inl rfl)

/-- Order on records by (chromosome rank, position), the order the merged
output stream is claimed to respect. -/
def keyLE (rank : String → Nat) (a b : VRecord) : Prop :=
  rank a.chrom < rank b.chrom ∨ (a.chrom = b.chrom ∧ a.pos ≤ b.pos)

instance keyLE.instDec (rank : String → Nat) : DecidableRel (keyLE rank) := fun a b => by
  unfold keyLE
  infer_instance

/-- Transitivity of the (chromosome-rank, position) order. -/
theorem keyLE_trans (rank : String → Nat) {a b c : VRecord}
    (h1 : keyLE rank a b) (h2 : keyLE rank b c) : keyLE rank a c := by
  rcases h1 with h1 | ⟨h1c, h1p⟩ <;> rcases h2 with h2 | ⟨h2c, h2p⟩
  · exact Or.inl (h1.trans h2)
  · exact Or.inl (h2c ▸ h1)
  · exact Or.inl (h1c ▸ h2)
  · exact Or.inr ⟨h1c.trans h2c, h1p.trans h2p⟩

/-- When the record head has a different chromosome and is not
rank-smaller, the emitted cpx head is below it (requires the rank table to
be injective). -/
theorem keyLE_of_not_smaller (rank : String → Nat)
    (hinj : ∀ a b : String, rank a = rank b → a = b) {r c : VRecord}
    (hch : ¬ (r.chrom == c.chrom) = true)
    (hsm : ¬ is_smaller_chrom rank r.chrom c.chrom = true) :
    keyLE rank c r := by
  left
  simp only [is_smaller_chrom, decide_eq_true_eq, not_lt] at hsm
  rcases lt_or_eq_of_le hsm with h | h
  · exact h
  · exact absurd (hinj _ _ h.symm) (by simpa using hch)

/-- Push a cons of a present element through `filterMap id`. -/
theorem filterMap_id_cons_some (x : VRecord) (L : List (Option VRecord)) :
    (some x :: L).filterMap id = x :: L.filterMap id := rfl

/-- `filterMap id` undoes `map some`. -/
theorem filterMap_id_map_some : ∀ l : List VRecord, (l.map some).filterMap id = l
  | [] => rfl
  | x :: xs => by rw [List.map_cons, filterMap_id_cons_some, filterMap_id_map_some xs]

/-- Main merge invariant: on sorted inputs the emitted records of
`mergeLists` are sorted, and any lower bound of both inputs bounds the
output. -/
theorem mergeLists_sorted_aux (rank : String → Nat)
    (hinj : ∀ a b : String, rank a = rank b → a = b) (ids : List String) :
    ∀ vcf cpx : List VRecord,
      vcf.Pairwise (keyLE rank) → cpx.Pairwise (keyLE rank) →
      ((mergeLists rank ids vcf cpx).filterMap id).Pairwise (keyLE rank) ∧
      ∀ a : VRecord, (∀ x ∈ vcf, keyLE rank a x) → (∀ y ∈ cpx, keyLE rank a y) →
        ∀ h ∈ (mergeLists rank ids vcf cpx).filterMap id, keyLE rank a h := by
  intro vcf cpx
  induction vcf, cpx using mergeLists.induct rank ids with
  | case1 r vcf c cpx hid ih =>
    intro hv hc
    rw [List.pairwise_cons] at hv
    obtain ⟨ihp, ihb⟩ := ih hv.2 hc
    rw [mergeLists, if_pos hid]
    refine ⟨ihp, ?_⟩
    intro a ha1 ha2 h hh
    exact ihb a (fun x hx => ha1 x (List.mem_cons_of_mem _ hx)) ha2 h hh
  | case2 r vcf c cpx hid hch hle ih =>
    intro hv hc
    rw [List.pairwise_cons] at hv
    obtain ⟨ihp, ihb⟩ := ih hv.2 hc
    rw [mergeLists, if_neg hid, if_pos hch, if_pos hle, filterMap_id_cons_some]
    have hrc : keyLE rank r c := Or.inr ⟨by simpa using hch, hle⟩
    have hbnd : ∀ h ∈ (mergeLists rank ids vcf (c :: cpx)).filterMap id, keyLE rank r h := by
      refine ihb r (fun x hx => hv.1 x hx) ?_
      intro y hy
      rcases List.mem_cons.mp hy with hy | hy
      · exact hy ▸ hrc
      · exact keyLE_trans rank hrc (List.rel_of_pairwise_cons hc hy)
    refine ⟨List.pairwise_cons.mpr ⟨hbnd, ihp⟩, ?_⟩
    intro a ha1 ha2 h hh
    rcases List.mem_cons.mp hh with hh | hh
    · exact hh ▸ ha1 r (List.mem_cons_self _ _)
    · exact ihb a (fun x hx => ha1 x (List.mem_cons_of_mem _ hx)) ha2 h hh
  | case3 r vcf c cpx hid hch hle ih =>
    intro hv hc
    rw [List.pairwise_cons] at hc
    obtain ⟨ihp, ihb⟩ := ih hv hc.2
    rw [mergeLists, if_neg hid, if_pos hch, if_neg hle, filterMap_id_cons_some]
    have hcr : keyLE rank c r :=
      Or.inr ⟨by simpa using (beq_iff_eq.mp hch).symm, le_of_not_le hle⟩
    have hbnd : ∀ h ∈ (mergeLists rank ids (r :: vcf) cpx).filterMap id, keyLE rank c h := by
      refine ihb c ?_ (fun y hy => hc.1 y hy)
      intro x hx
      rcases List.mem_cons.mp hx with hx | hx
      · exact hx ▸ hcr
      · exact keyLE_trans rank hcr (List.rel_of_pairwise_cons hv hx)
    refine ⟨List.pairwise_cons.mpr ⟨hbnd, ihp⟩, ?_⟩
    intro a ha1 ha2 h hh
    rcases List.mem_cons.mp hh with hh | hh
    · exact hh ▸ ha2 c (List.mem_cons_self _ _)
    · exact ihb a ha1 (fun y hy => ha2 y (List.mem_cons_of_mem _ hy)) h hh
  | case4 r vcf c cpx hid hch hsm ih =>
    intro hv hc
    rw [List.pairwise_cons] at hv
    obtain ⟨ihp, ihb⟩ := ih hv.2 hc
    rw [mergeLists, if_neg hid, if_neg hch, if_pos hsm, filterMap_id_cons_some]
    have hrc : keyLE rank r c := by
      left
      simpa [is_smaller_chrom] using hsm
    have hbnd : ∀ h ∈ (mergeLists rank ids vcf (c :: cpx)).filterMap id, keyLE rank r h := by
      refine ihb r (fun x hx => hv.1 x hx) ?_
      intro y hy
      rcases List.mem_cons.mp hy with hy | hy
      · exact hy ▸ hrc
      · exact keyLE_trans rank hrc (List.rel_of_pairwise_cons hc hy)
    refine ⟨List.pairwise_cons.mpr ⟨hbnd, ihp⟩, ?_⟩
    intro a ha1 ha2 h hh
    rcases List.mem_cons.mp hh with hh | hh
    · exact hh ▸ ha1 r (List.mem_cons_self _ _)
    · exact ihb a (fun x hx => ha1 x (List.mem_cons_of_mem _ hx)) ha2 h hh
  | case5 r vcf c cpx hid hch hsm ih =>
    intro hv hc
    rw [List.pairwise_cons] at hc
    obtain ⟨ihp, ihb⟩ := ih hv hc.2
    rw [mergeLists, if_neg hid, if_neg hch, if_neg hsm, filterMap_id_cons_some]
    have hcr : keyLE rank c r := keyLE_of_not_smaller rank hinj hch hsm
    have hbnd : ∀ h ∈ (mergeLists rank ids (r :: vcf) cpx).filterMap id, keyLE rank c h := by
      refine ihb c ?_ (fun y hy => hc.1 y hy)
      intro x hx
      rcases List.mem_cons.mp hx with hx | hx
      · exact hx ▸ hcr
      · exact keyLE_trans rank hcr (List.rel_of_pairwise_cons hv hx)
    refine ⟨List.pairwise_cons.mpr ⟨hbnd, ihp⟩, ?_⟩
    intro a ha1 ha2 h hh
    rcases List.mem_cons.mp hh with hh | hh
    · exact hh ▸ ha2 c (List.mem_cons_self _ _)
    · exact ihb a ha1 (fun y hy => ha2 y (List.mem_cons_of_mem _ hy)) h hh
  | case6 cpx =>
    intro _ hc
    rw [mergeLists, filterMap_id_map_some]
    exact ⟨hc, fun a _ ha2 h hh => ha2 h hh⟩
  | case7 vcf hne =>
    intro hv _
    rw [mergeLists, filterMap_id_map_some]
    constructor
    · exact hv.sublist (List.filter_sublist _)
    · intro a ha1 _ h hh
      exact ha1 h (List.mem_of_mem_filter hh)


/-- C2 (amended): on a sorted original stream AND a sorted synthesized
queue, every pair of adjacent emitted records of `_merge_records` is
non-decreasing in (chromosome-rank, position); the contig-rank table must
be injective.  The claim as stated (queue merely in first-encountered
order) is refuted by `merge_queue_order_not_sorted`. -/
theorem merge_output_sorted (rank : String → Nat)
    (hinj : ∀ a b : String, rank a = rank b → a = b) (ids : List String)
    (vcf cpx : List VRecord)
    (hvcf : List.Chain' (keyLE rank) vcf) (hcpx : List.Chain' (keyLE rank) cpx) :
    List.Chain' (keyLE rank) ((mergeRecords rank ids vcf cpx).filterMap id) := by
  haveI : IsTrans VRecord (keyLE rank) := ⟨fun _ _ _ => keyLE_trans rank⟩
  rw [List.chain'_iff_pairwise] at hvcf hcpx
  rw [List.chain'_iff_pairwise]
  rcases vcf with _ | ⟨v, vs⟩ <;> rcases cpx with _ | ⟨c, cs⟩
  · simp [mergeRecords]
  · exact (mergeLists_sorted_aux rank hinj ids _ _ hvcf hcpx).1
  · exact (mergeLists_sorted_aux rank hinj ids _ _ hvcf hcpx).1
  · exact (mergeLists_sorted_aux rank hinj ids _ _ hvcf hcpx).1

def rank0 : String → Nat := fun _ => 0
def c2va : VRecord := { baseRec with id := "a", pos := 10 }
def c2vb : VRecord := { baseRec with id := "b", pos := 100 }
def c2vc : VRecord := { baseRec with id := "c", pos := 5 }

/-- Counterexample to C2 as stated: with a sorted one-record original
stream and a queue in first-encountered (unsorted) order, the merged
output violates the (chromosome-rank, position) order: the yields are
positions 10, 100, 5 on one chromosome. -/
theorem merge_queue_order_not_sorted :
    List.Chain' (keyLE rank0) [c2va] ∧
    ¬ List.Chain' (keyLE rank0) ((mergeRecords rank0 [] [c2va] [c2vb, c2vc]).filterMap id) := by
  constructor
  · simp
  · have hout : (mergeRecords rank0 [] [c2va] [c2vb, c2vc]).filterMap id =
        [c2va, c2vb, c2vc] := by
      simp [mergeRecords, mergeLists, is_smaller_chrom, rank0, c2va, c2vb, c2vc, baseRec]
    rw [hout]
    intro hch
    rw [List.chain'_cons, List.chain'_cons] at hch
    rcases hch.2.1 with h | ⟨_, h⟩
    · exact absurd h (by simp [rank0])
    · exact absurd h (by simp [c2vb, c2vc, baseRec])

def strEnc (s : String) : Nat :=
  s.toList.foldr (fun c acc => (c.toNat + 1) + (2 ^ 32 + 1) * acc) 0

theorem strEnc_list_inj :
    ∀ l1 l2 : List Char,
      l1.foldr (fun c acc => (c.toNat + 1) + (2 ^ 32 + 1) * acc) 0 =
        l2.foldr (fun c acc => (c.toNat + 1) + (2 ^ 32 + 1) * acc) 0 → l1 = l2 := by
  intro l1
  induction l1 with
  | nil =>
    intro l2 h
    cases l2 with
    | nil => rfl
    | cons b bs =>
      exfalso
      simp only [List.foldr] at h
      omega
  | cons a as ih =>
    intro l2 h
    cases l2 with
    | nil =>
      exfalso
      simp only [List.foldr] at h
      omega
    | cons b bs =>
      simp only [List.foldr] at h
      have ha : a.toNat < 2 ^ 32 := a.val.val.isLt
      have hb : b.toNat < 2 ^ 32 := b.val.val.isLt
      have heq : a.toNat = b.toNat ∧
          as.foldr (fun c acc => (c.toNat + 1) + (2 ^ 32 + 1) * acc) 0 =
            bs.foldr (fun c acc => (c.toNat + 1) + (2 ^ 32 + 1) * acc) 0 := by
        constructor <;> omega
      have hab : a = b := Char.ext (UInt32.ext heq.1)
      rw [hab, ih bs heq.2]


/-- The base-(2^32+1) character-list encoding is injective, so `strEnc`
is an injective contig-rank table usable in witnesses. -/
theorem strEnc_injective : ∀ a b : String, strEnc a = strEnc b → a = b := by
  intro a b h
  have hl := strEnc_list_inj a.toList b.toList h
  cases a with
  | mk d1 =>
    cases b with
    | mk d2 => exact congrArg String.mk (by simpa [String.toList] using hl)

def c2w1 : VRecord := { baseRec with id := "w1", pos := 10 }
def c2w2 : VRecord := { baseRec with id := "w2", pos := 50 }
def c2w3 : VRecord := { baseRec with id := "w3", pos := 30 }

/-- Witness for C2 (amended): a concrete sorted stream and sorted queue
with the injective rank table `strEnc` produce a sorted merge. -/
theorem merge_output_sorted_witness :
    List.Chain' (keyLE strEnc) [c2w1, c2w2] ∧ List.Chain' (keyLE strEnc) [c2w3] ∧
    List.Chain' (keyLE strEnc)
      ((mergeRecords strEnc ["x"] [c2w1, c2w2] [c2w3]).filterMap id) := by
  have h1 : List.Chain' (keyLE strEnc) [c2w1, c2w2] := by
    rw [List.chain'_cons]
    exact ⟨Or.inr ⟨rfl, by decide⟩, List.chain'_singleton _⟩
  have h2 : List.Chain' (keyLE strEnc) [c2w3] := List.chain'_singleton _
  exact ⟨h1, h2, merge_output_sorted strEnc strEnc_injective ["x"] _ _ h1 h2⟩

/-- Draining the merge with an empty queue and an empty consumed set
reproduces the record stream. -/
theorem merge_nil_ids_nil_cpx (rank : String → Nat) :
    ∀ l : List VRecord, (mergeRecords rank [] l []).filterMap id = l
  | [] => rfl
  | v :: vs => by
    show (mergeLists rank [] (v :: vs) []).filterMap id = v :: vs
    rw [mergeLists, filterMap_id_map_some]
    simp



/-- The head seed is below `listMax`. -/
theorem le_listMax_self : ∀ (xs : List Int) (x : Int), x ≤ listMax x xs := by
  intro xs
  induction xs with
  | nil => intro x; exact le_refl x
  | cons y ys ih =>
    intro x
    calc x ≤ max x y := le_max_left x y
    _ ≤ listMax (max x y) ys := ih (max x y)

/-- Every listed element is below `listMax`. -/
theorem le_listMax_of_mem : ∀ (xs : List Int) (x y : Int), y ∈ xs → y ≤ listMax x xs := by
  intro xs
  induction xs with
  | nil => intro x y h; exact absurd h (List.not_mem_nil y)
  | cons z zs ih =>
    intro x y h
    rcases List.mem_cons.mp h with h | h
    · subst h
      calc y ≤ max x y := le_max_right x y
      _ ≤ listMax (max x y) zs := le_listMax_self zs _
    · exact ih (max x z) y h

/-- `listMax` is the seed or one of the listed elements. -/
theorem listMax_mem : ∀ (xs : List Int) (x : Int), listMax x xs = x ∨ listMax x xs ∈ xs := by
  intro xs
  induction xs with
  | nil => intro x; exact Or.inl rfl
  | cons y ys ih =>
    intro x
    rcases ih (max x y) with h | h
    · rcases max_cases x y with ⟨hm, _⟩ | ⟨hm, _⟩
      · exact Or.inl (by rw [show listMax x (y :: ys) = listMax (max x y) ys from rfl, h, hm])
      · refine Or.inr (List.mem_cons.mpr (Or.inl ?_))
        rw [show listMax x (y :: ys) = listMax (max x y) ys from rfl, h, hm]
    · exact Or.inr (List.mem_cons.mpr (Or.inr h))

/-- The head seed is above `listMin`. -/
theorem listMin_le_self : ∀ (xs : List Int) (x : Int), listMin x xs ≤ x := by
  intro xs
  induction xs with
  | nil => intro x; exact le_refl x
  | cons y ys ih =>
    intro x
    calc listMin (min x y) ys ≤ min x y := ih (min x y)
    _ ≤ x := min_le_left x y

/-- `listMin` is below every listed element. -/
theorem listMin_le_of_mem : ∀ (xs : List Int) (x y : Int), y ∈ xs → listMin x xs ≤ y := by
  intro xs
  induction xs with
  | nil => intro x y h; exact absurd h (List.not_mem_nil y)
  | cons z zs ih =>
    intro x y h
    rcases List.mem_cons.mp h with h | h
    · subst h
      calc listMin (min x y) zs ≤ min x y := listMin_le_self zs _
      _ ≤ y := min_le_right x y
    · exact ih (min x z) y h

/-- `listMin` is the seed or one of the listed elements. -/
theorem listMin_mem : ∀ (xs : List Int) (x : Int), listMin x xs = x ∨ listMin x xs ∈ xs := by
  intro xs
  induction xs with
  | nil => intro x; exact Or.inl rfl
  | cons y ys ih =>
    intro x
    rcases ih (min x y) with h | h
    · rcases min_cases x y with ⟨hm, _⟩ | ⟨hm, _⟩
      · exact Or.inl (by rw [show listMin x (y :: ys) = listMin (min x y) ys from rfl, h, hm])
      · refine Or.inr (List.mem_cons.mpr (Or.inl ?_))
        rw [show listMin x (y :: ys) = listMin (min x y) ys from rfl, h, hm]
    · exact Or.inr (List.mem_cons.mpr (Or.inr h))

/-- Field-level characterization of `make_new_record` on a nonempty pair
list. -/
theorem make_new_record_spec (q0 : DiscPair) (qs : List DiscPair) (old : VRecord) :
    ∃ r, make_new_record (q0 :: qs) old = Except.ok r ∧
      r.id = old.id ++ "_OPPSTRAND" ∧ r.algorithms = ["rescan"] ∧
      r.svlen = r.stop - r.pos ∧
      (if q0.strandA == "+" then
        r.strandsInfo = some "++" ∧ r.pos = listMax q0.posA (qs.map (fun p => p.posA)) ∧
          r.stop = listMax q0.posB (qs.map (fun p => p.posB))
       else
        r.strandsInfo = some "--" ∧ r.pos = listMin q0.posA (qs.map (fun p => p.posA)) ∧
          r.stop = listMin q0.posB (qs.map (fun p => p.posB))) := by
  rcases hA : (q0.strandA == "+") with _ | _ <;>
    simp only [make_new_record, hA, if_true, if_false, Bool.false_eq_true] <;>
    exact ⟨_, rfl, rfl, rfl, by simp [VRecord.stop, VRecord.setStop, hA]⟩


set_option maxHeartbeats 1000000 in
theorem rescan_characterization
    (slink : List DiscPair → Int → List (List DiscPair)) (record : VRecord)
    (pairs : List DiscPair) (window dist : Int) (min_support : Nat) (min_frac : ℚ)
    (c0 : List DiscPair) (cs : List (List DiscPair))
    (missing : String) (supporting : List DiscPair) (nsup : Nat)
    (hclusters : exceptFilter (fun c => match_cluster record c window)
      (slink (pairs.filter (fun p =>
        record.calledSamples.contains p.sample && p.is_inversion)) dist) =
      Except.ok (c0 :: cs))
    (hcalled : record.calledSamples ≠ [])
    (hmiss : missing = (if record.strands == "--" then "+" else "-"))
    (hsup : supporting = (maxByLen c0 cs).filter (fun p => p.strandA == missing))
    (hnsup : nsup = (record.calledSamples.filter (fun s =>
      min_support ≤ (supporting.filter (fun p => p.sample == s)).length)).length) :
    rescan_single_ender slink record pairs window dist min_support min_frac =
      (if ((nsup : ℚ) / (record.calledSamples.length : ℚ) ≥ min_frac) then
         (make_new_record supporting record).map some
       else Except.ok none) := by
  subst hnsup
  subst hsup
  subst hmiss
  unfold rescan_single_ender
  dsimp only
  rw [hclusters]
  have hlen : (record.calledSamples.length == 0) = false := by
    simp [List.length_eq_zero, hcalled]
  simp only [Except.bind, bind, hlen, Bool.false_eq_true, if_false, reduceIte]
  split_ifs with h <;> rfl


/-- The mapped `listMax` over a nonempty pair list is attained and bounds
every element. -/
theorem listMax_map_spec (f : DiscPair → Int) (q0 : DiscPair) (qs : List DiscPair) :
    listMax (f q0) (qs.map f) ∈ (q0 :: qs).map f ∧
    ∀ p ∈ q0 :: qs, f p ≤ listMax (f q0) (qs.map f) := by
  constructor
  · rcases listMax_mem (qs.map f) (f q0) with h | h
    · rw [List.map_cons, h]
      exact List.mem_cons_self _ _
    · rw [List.map_cons]
      exact List.mem_cons_of_mem _ h
  · intro p hp
    rcases List.mem_cons.mp hp with h | h
    · subst h
      exact le_listMax_self _ _
    · exact le_listMax_of_mem _ _ _ (List.mem_map_of_mem f h)

/-- The mapped `listMin` over a nonempty pair list is attained and is below
every element. -/
theorem listMin_map_spec (f : DiscPair → Int) (q0 : DiscPair) (qs : List DiscPair) :
    listMin (f q0) (qs.map f) ∈ (q0 :: qs).map f ∧
    ∀ p ∈ q0 :: qs, listMin (f q0) (qs.map f) ≤ f p := by
  constructor
  · rcases listMin_mem (qs.map f) (f q0) with h | h
    · rw [List.map_cons, h]
      exact List.mem_cons_self _ _
    · rw [List.map_cons]
      exact List.mem_cons_of_mem _ h
  · intro p hp
    rcases List.mem_cons.mp hp with h | h
    · subst h
      exact listMin_le_self _ _
    · exact listMin_le_of_mem _ _ _ (List.mem_map_of_mem f h)

/-- Helper: when the sample-fraction condition holds with a positive
threshold fraction and a positive pair threshold, the supporting-pair list
is nonempty. -/
theorem supporting_nonempty (called : List String) (supporting : List DiscPair)
    (min_support : Nat) (min_frac : ℚ)
    (hmin1 : 1 ≤ min_support) (hfrac0 : 0 < min_frac)
    (hcond : ((called.filter (fun s =>
        min_support ≤ (supporting.filter (fun p => p.sample == s)).length)).length : ℚ) /
        (called.length : ℚ) ≥ min_frac) :
    supporting ≠ [] := by
  intro hnil
  subst hnil
  simp only [List.filter_nil, List.length_nil, Nat.le_zero] at hcond
  have : (called.filter (fun s => min_support = 0)).length = 0 := by
    have : (fun (s : String) => decide (min_support = 0)) = fun _ => false := by
      funext s
      simp
      omega
    rw [this]
    simp
  rw [this] at hcond
  simp at hcond
  linarith


/-- C7 (amended): for a single-ended inversion record with STRANDS "--"
(resp. "++"), given the matched clusters of the fetched pairs, rescue
counts only the pairs of the opposite ("missing") strand within the
largest matching cluster; it synthesizes a record exactly when the
fraction of called samples with at least `min_support` supporting pairs
reaches `min_frac` (returning none otherwise); the synthesized record
copies the original with `_OPPSTRAND` appended to its id, STRANDS set to
the missing orientation, pos and stop the extremal supporting-pair
coordinates, SVLEN = stop - pos, and algorithm provenance "rescan" (the
claim says "rescue"; see the counterexample). -/
theorem rescan_single_ender_spec
    (slink : List DiscPair → Int → List (List DiscPair)) (record : VRecord)
    (pairs : List DiscPair) (window dist : Int) (min_support : Nat) (min_frac : ℚ)
    (c0 : List DiscPair) (cs : List (List DiscPair))
    (missing : String) (supporting : List DiscPair) (nsup : Nat)
    (hclusters : exceptFilter (fun c => match_cluster record c window)
      (slink (pairs.filter (fun p =>
        record.calledSamples.contains p.sample && p.is_inversion)) dist) =
      Except.ok (c0 :: cs))
    (hcalled : record.calledSamples ≠ [])
    (hmiss : missing = (if record.strands == "--" then "+" else "-"))
    (hsup : supporting = (maxByLen c0 cs).filter (fun p => p.strandA == missing))
    (hnsup : nsup = (record.calledSamples.filter (fun s =>
      min_support ≤ (supporting.filter (fun p => p.sample == s)).length)).length)
    (hmin1 : 1 ≤ min_support) (hfrac0 : 0 < min_frac) :
    rescan_single_ender slink record pairs window dist min_support min_frac =
      (if ((nsup : ℚ) / (record.calledSamples.length : ℚ) ≥ min_frac) then
         (make_new_record supporting record).map some
       else Except.ok none) ∧
    (((nsup : ℚ) / (record.calledSamples.length : ℚ) ≥ min_frac) →
      ∃ r, make_new_record supporting record = Except.ok r ∧
        r.id = record.id ++ "_OPPSTRAND" ∧
        r.algorithms = ["rescan"] ∧
        r.strandsInfo = some (if missing = "+" then "++" else "--") ∧
        r.svlen = r.stop - r.pos ∧
        r.pos ∈ supporting.map (fun p => p.posA) ∧
        r.stop ∈ supporting.map (fun p => p.posB) ∧
        ∀ p ∈ supporting, (if missing = "+" then p.posA ≤ r.pos ∧ p.posB ≤ r.stop
          else r.pos ≤ p.posA ∧ r.stop ≤ p.posB)) := by
  refine ⟨rescan_characterization slink record pairs window dist min_support min_frac
    c0 cs missing supporting nsup hclusters hcalled hmiss hsup hnsup, ?_⟩
  intro hcond
  rw [hnsup] at hcond
  have hne : supporting ≠ [] :=
    supporting_nonempty record.calledSamples supporting min_support min_frac
      hmin1 hfrac0 hcond
  rcases hsupp : supporting with _ | ⟨q0, qs⟩
  · exact absurd hsupp hne
  · obtain ⟨r, hr, hid, halg, hsvl, hfields⟩ := make_new_record_spec q0 qs record
    have hq0 : q0 ∈ supporting := by
      rw [hsupp]
      exact List.mem_cons_self _ _
    have hq0s : q0.strandA = missing := by
      rw [hsup] at hq0
      simpa using (List.mem_filter.mp hq0).2
    have hmm : missing = "+" ∨ missing = "-" := by
      rw [hmiss]
      split_ifs <;> simp
    rcases hmm with hm | hm
    · have hq0t : (q0.strandA == "+") = true := by
        rw [hq0s, hm]
        decide
      rw [hq0t] at hfields
      simp only [reduceIte] at hfields
      obtain ⟨hstr, hpos, hstop⟩ := hfields
      refine ⟨r, hr, hid, halg, ?_, hsvl, ?_, ?_, ?_⟩
      · rw [hm, if_pos rfl, hstr]
      · rw [hpos]
        exact (listMax_map_spec (fun p => p.posA) q0 qs).1
      · rw [hstop]
        exact (listMax_map_spec (fun p => p.posB) q0 qs).1
      · intro p hp
        rw [hm, if_pos rfl]
        exact ⟨hpos ▸ (listMax_map_spec (fun p => p.posA) q0 qs).2 p hp,
          hstop ▸ (listMax_map_spec (fun p => p.posB) q0 qs).2 p hp⟩
    · have hq0t : (q0.strandA == "+") = false := by
        rw [hq0s, hm]
        decide
      rw [hq0t] at hfields
      simp only [Bool.false_eq_true, if_false, reduceIte] at hfields
      obtain ⟨hstr, hpos, hstop⟩ := hfields
      have hmne : ¬ missing = "+" := by
        rw [hm]
        decide
      refine ⟨r, hr, hid, halg, ?_, hsvl, ?_, ?_, ?_⟩
      · rw [if_neg hmne, hstr]
      · rw [hpos]
        exact (listMin_map_spec (fun p => p.posA) q0 qs).1
      · rw [hstop]
        exact (listMin_map_spec (fun p => p.posB) q0 qs).1
      · intro p hp
        rw [if_neg hmne]
        exact ⟨hpos ▸ (listMin_map_spec (fun p => p.posA) q0 qs).2 p hp,
          hstop ▸ (listMin_map_spec (fun p => p.posB) q0 qs).2 p hp⟩


/-- Discordant-pair fixture builder (both ends on one chromosome, equal
strands: an inversion-type pair). -/
def mkPair (s strand : String) (pA pB : Int) : DiscPair :=
  ⟨"chr1", pA, strand, "chr1", pB, strand, s⟩

/-- Single-ender inversion record fixture with STRANDS set to "--" and two
called samples. -/
def c7rec : VRecord :=
  { baseRec with id := "inv_se", svtypeInfo := "INV", strandsInfo := some "--",
                 pos := 1000, endInfo := some 5000, calledSamples := ["s1", "s2"] }

/-- Fetched pair fixture: one minus pair matching the record coordinates
and four plus pairs per called sample, all within the clustering
distance. -/
def c7pairs : List DiscPair :=
  [mkPair "s1" "-" 1000 5000,
   mkPair "s1" "+" 1010 5010, mkPair "s1" "+" 1020 5020,
   mkPair "s1" "+" 1030 5030, mkPair "s1" "+" 1040 5040,
   mkPair "s2" "+" 1010 5010, mkPair "s2" "+" 1020 5020,
   mkPair "s2" "+" 1030 5030, mkPair "s2" "+" 1040 5040]

/-- Modelled from the spec: the single-linkage clustering primitive of the
spec returns one connected component when every pair is within the
clustering distance of the next, as in the fixtures above. -/
def clusterAll : List DiscPair → Int → List (List DiscPair) := fun ps _ => [ps]

/-- The plus-strand supporting pairs of the fixture cluster. -/
def c7supporting : List DiscPair :=
  (c7pairs.filter (fun p =>
    c7rec.calledSamples.contains p.sample && p.is_inversion)).filter
      (fun p => p.strandA == "+")

/-- Counterexample to C7 as stated: a successful concrete rescue tags the
algorithm provenance as "rescan", not "rescue". -/
theorem c7_counterexample_algorithms :
    (rescan_single_ender clusterAll c7rec c7pairs 500 300 4 (1/2)).map
        (Option.map (fun r => r.algorithms)) = Except.ok (some ["rescan"]) ∧
    (["rescan"] : List String) ≠ ["rescue"] := by
  constructor
  · have h := rescan_characterization clusterAll c7rec c7pairs 500 300 4 (1/2)
      (c7pairs.filter (fun p =>
        c7rec.calledSamples.contains p.sample && p.is_inversion)) []
      "+" c7supporting 2
      rfl (by decide) rfl rfl rfl
    have hlen : c7rec.calledSamples.length = 2 := rfl
    rw [hlen] at h
    rw [h, if_pos (by norm_num : ((2 : ℕ) : ℚ) / ((2 : ℕ) : ℚ) ≥ 1/2)]
    rfl
  · decide


/-- Witness for C7 (amended) at the concrete fixture run: both called
samples have four plus-strand supporting pairs, so the fraction test
passes and the synthesized record has the stated fields. -/
theorem rescan_single_ender_spec_witness :
    (rescan_single_ender clusterAll c7rec c7pairs 500 300 4 (1/2) =
      (if (((2 : Nat) : ℚ) / ((c7rec.calledSamples.length : Nat) : ℚ) ≥ 1/2) then
         (make_new_record c7supporting c7rec).map some
       else Except.ok none)) ∧
    ((((2 : Nat) : ℚ) / ((c7rec.calledSamples.length : Nat) : ℚ) ≥ 1/2) →
      ∃ r, make_new_record c7supporting c7rec = Except.ok r ∧
        r.id = c7rec.id ++ "_OPPSTRAND" ∧
        r.algorithms = ["rescan"] ∧
        r.strandsInfo = some (if "+" = "+" then "++" else "--") ∧
        r.svlen = r.stop - r.pos ∧
        r.pos ∈ c7supporting.map (fun p => p.posA) ∧
        r.stop ∈ c7supporting.map (fun p => p.posB) ∧
        ∀ p ∈ c7supporting, (if "+" = "+" then p.posA ≤ r.pos ∧ p.posB ≤ r.stop
          else r.pos ≤ p.posA ∧ r.stop ≤ p.posB)) :=
  rescan_single_ender_spec clusterAll c7rec c7pairs 500 300 4 (1/2)
    (c7pairs.filter (fun p => c7rec.calledSamples.contains p.sample && p.is_inversion)) []
    "+" c7supporting 2 rfl (by decide) rfl rfl rfl (by decide) (by norm_num)



/-- Membership in `insertStr` is membership in the inserted element or the
list. -/
theorem mem_insertStr (a x : String) : ∀ l : List String,
    a ∈ insertStr x l ↔ a = x ∨ a ∈ l := by
  intro l
  induction l with
  | nil => simp [insertStr]
  | cons y ys ih =>
    simp only [insertStr]
    split_ifs with h
    · simp
    · simp only [List.mem_cons, ih]
      tauto

/-- `sortStrs` preserves membership. -/
theorem mem_sortStrs (a : String) : ∀ l : List String, a ∈ sortStrs l ↔ a ∈ l := by
  intro l
  induction l with
  | nil => simp [sortStrs]
  | cons x xs ih =>
    simp only [sortStrs, mem_insertStr, ih, List.mem_cons]

/-- `remove_SR_only_breakpoints` keeps a subset of the records. -/
theorem remove_SR_subset (b : Bool) (recs : List VRecord) :
    ∀ r ∈ remove_SR_only_breakpoints b recs, r ∈ recs := by
  intro r hr
  unfold remove_SR_only_breakpoints at hr
  dsimp only at hr
  split_ifs at hr
  · exact List.mem_of_mem_filter hr
  · exact hr
  · exact hr

/-- `remove_SR_only_breakpoints` never empties a nonempty record list. -/
theorem remove_SR_ne_nil (b : Bool) (recs : List VRecord) (hne : recs ≠ []) :
    remove_SR_only_breakpoints b recs ≠ [] := by
  unfold remove_SR_only_breakpoints
  dsimp only
  split_ifs with h1 h2
  · intro hc
    rw [hc] at h2
    simp at h2
  · exact hne
  · exact hne

set_option maxHeartbeats 1000000 in
/-- `resolve_translocation` never changes the member-record list. -/
theorem resolve_translocation_records (cyto : String → Int → String) (st : CpxState)
    (tlocs : List VRecord) (st' : CpxState)
    (h : resolve_translocation cyto st tlocs = Except.ok st') :
    st'.records = st.records := by
  unfold resolve_translocation at h
  rcases tlocs with _ | ⟨t0, _ | ⟨t1, _ | _⟩⟩
  · cases h
  · cases h
  · dsimp only at h
    split at h
    · cases h
    · cases h
      rfl
  · cases h

/-- `resolve_insertion` never changes the member-record list. -/
theorem resolve_insertion_records (classifyIns : VRecord → VRecord → String)
    (st : CpxState) (breakends insertions : List VRecord) (st' : CpxState)
    (h : resolve_insertion classifyIns st breakends insertions = Except.ok st') :
    st'.records = st.records := by
  unfold resolve_insertion at h
  rcases breakends with _ | ⟨b0, _ | ⟨b1, _ | _⟩⟩
  · cases h
  · cases h
  · cases h
    rfl
  · cases h

set_option maxHeartbeats 1000000 in
/-- `report_simple_insertion` never changes the member-record list. -/
theorem report_simple_insertion_records (st : CpxState) (p : Partition) (st' : CpxState)
    (h : report_simple_insertion st p = Except.ok st') :
    st'.records = st.records := by
  unfold report_simple_insertion at h
  split at h
  · split at h
    · split at h
      · cases h
        rfl
      · cases h
    · cases h
  · split at h
    · split at h
      · split at h
        · cases h
          rfl
        · cases h
          rfl
      · cases h
    · cases h
      rfl

set_option maxHeartbeats 1000000 in
/-- The member records after `resolve_inversion` come from the inversion
pair or the CNV list (given the retained-CNV contract of the inversion
classifier), and the list is nonempty. -/
theorem resolve_inversion_records (P : CpxParams) (st : CpxState)
    (inversions cnvs : List VRecord) (st' : CpxState)
    (hcls : ∀ FF RR cn, ∀ r ∈ (P.classifyInv FF RR cn).2, r ∈ cn)
    (h : resolve_inversion P st inversions cnvs = Except.ok st') :
    (∀ r ∈ st'.records, r ∈ inversions ∨ r ∈ cnvs) ∧ st'.records ≠ [] := by
  unfold resolve_inversion at h
  rcases inversions with _ | ⟨i0, _ | ⟨i1, _ | _⟩⟩
  · cases h
  · cases h
  · dsimp only at h
    cases h
    constructor
    · intro r hr
      rcases List.mem_append.mp hr with hr | hr
      · left
        split_ifs at hr <;> simp_all
        tauto
      · exact Or.inr (hcls _ _ _ _ hr)
    · simp
  · cases h

set_option maxHeartbeats 1000000 in
/-- One pass of `ComplexSV.resolve` keeps the member records inside the
input cluster and never empties them. -/
theorem resolve_pass_records (P : CpxParams) (recs : List VRecord) (v : VRecord)
    (st' : CpxState)
    (hcls : ∀ FF RR cn, ∀ r ∈ (P.classifyInv FF RR cn).2, r ∈ cn)
    (hne : recs ≠ [])
    (h : resolve_pass P recs v = Except.ok (some st')) :
    (∀ r ∈ st'.records, r ∈ recs) ∧ st'.records ≠ [] := by
  unfold resolve_pass at h
  dsimp only at h
  split_ifs at h
  · rcases hinv : resolve_inversion P ⟨recs, v, set_cluster_type (organize_records recs),
        "", ""⟩ (organize_records recs).inversions (organize_records recs).cnvs with e | st1
    · rw [hinv] at h
      cases h
    · rw [hinv] at h
      cases h
      obtain ⟨hmem, hne'⟩ := resolve_inversion_records _ _ _ _ _ hcls hinv
      refine ⟨fun r hr => ?_, hne'⟩
      rcases hmem r hr with hm | hm
      · exact List.mem_of_mem_filter hm
      · exact List.mem_of_mem_filter hm
  · rcases htl : resolve_translocation P.cytobands ⟨recs, v,
        set_cluster_type (organize_records recs), "", ""⟩
        (organize_records recs).tlocs with e | st1
    · rw [htl] at h
      cases h
    · rw [htl] at h
      cases h
      have hrec := resolve_translocation_records _ _ _ _ htl
      rw [hrec]
      exact ⟨fun r hr => hr, hne⟩
  · rcases hins : resolve_insertion P.classifyIns ⟨recs, v,
        set_cluster_type (organize_records recs), "", ""⟩
        (organize_records recs).breakends (organize_records recs).insertions with e | st1
    · rw [hins] at h
      cases h
    · rw [hins] at h
      cases h
      have hrec := resolve_insertion_records _ _ _ _ _ hins
      rw [hrec]
      exact ⟨fun r hr => hr, hne⟩
  · rcases hrep : report_simple_insertion ⟨recs, v,
        set_cluster_type (organize_records recs), "", ""⟩
        (organize_records recs) with e | st1
    · rw [hrep] at h
      cases h
    · rw [hrep] at h
      cases h
      have hrec := report_simple_insertion_records _ _ _ hrep
      rw [hrec]
      exact ⟨fun r hr => hr, hne⟩
  · cases h

set_option maxHeartbeats 1000000 in
/-- `ComplexSV.resolve` keeps the member records inside the input cluster
and never empties them. -/
theorem ComplexSV_resolve_records (P : CpxParams) (recs : List VRecord) (v : VRecord)
    (st : CpxState)
    (hcls : ∀ FF RR cn, ∀ r ∈ (P.classifyInv FF RR cn).2, r ∈ cn)
    (hne : recs ≠ [])
    (h : ComplexSV_resolve P recs v = Except.ok st) :
    (∀ r ∈ st.records, r ∈ recs) ∧ st.records ≠ [] := by
  unfold ComplexSV_resolve at h
  rcases h1 : resolve_pass P recs v with e | o1
  · rw [h1] at h
    cases h
  · rw [h1] at h
    simp only [bind, Except.bind] at h
    rcases o1 with _ | st1
    · dsimp only at h
      rcases h2 : resolve_pass P (remove_SR_only_breakpoints P.hasEvidenceKey recs) v
          with e | o2
      · rw [h2] at h
        cases h
      · rw [h2] at h
        simp only [bind, Except.bind] at h
        rcases o2 with _ | st2
        · dsimp only [pure, Except.pure] at h
          cases h
          refine ⟨fun r hr => remove_SR_subset _ _ r hr, ?_⟩
          exact remove_SR_ne_nil _ _ hne
        · dsimp only [pure, Except.pure] at h
          cases h
          obtain ⟨hmem, hne'⟩ := resolve_pass_records _ _ _ _ hcls
            (remove_SR_ne_nil _ _ hne) h2
          exact ⟨fun r hr => remove_SR_subset _ _ r (hmem r hr), hne'⟩
    · dsimp only [pure, Except.pure] at h
      cases h
      exact resolve_pass_records _ _ _ _ hcls hne h1

/-- `clean_record` keeps the member records and writes the sorted member-id
list into the record's MEMBERS field. -/
theorem clean_record_spec (b : Bool) (st : CpxState) :
    (clean_record b st).records = st.records ∧
    (clean_record b st).vcf_record.membersInfo =
      sortStrs (st.records.map (fun r => r.id)) := by
  obtain ⟨recs0, v0, ct0, svt0, cpt0⟩ := st
  unfold clean_record
  dsimp only
  refine ⟨rfl, ?_⟩
  cases hfm : recs0.filterMap (fun r => r.varGQ) with
  | nil => rfl
  | cons g gs => split_ifs <;> rfl

/-- The `ComplexSV` constructor keeps the member records inside the input
cluster, never empties them, and sets MEMBERS to their sorted id list. -/
theorem makeComplexSV_spec (P : CpxParams) (recs : List VRecord) (st : CpxState)
    (hcls : ∀ FF RR cn, ∀ r ∈ (P.classifyInv FF RR cn).2, r ∈ cn)
    (h : makeComplexSV P recs = Except.ok st) :
    (∀ r ∈ st.records, r ∈ recs) ∧ st.records ≠ [] ∧
    st.vcf_record.membersInfo = sortStrs (st.records.map (fun r => r.id)) := by
  unfold makeComplexSV at h
  rcases recs with _ | ⟨r0, rs⟩
  · cases h
  · dsimp only at h
    rcases h1 : ComplexSV_resolve P (r0 :: rs) r0 with e | st1
    · rw [h1] at h
      cases h
    · rw [h1] at h
      simp only [Except.map] at h
      cases h
      obtain ⟨hmem, hne⟩ := ComplexSV_resolve_records _ _ _ _ hcls (by simp) h1
      obtain ⟨hcr, hcm⟩ := clean_record_spec P.hasVarGQKey st1
      refine ⟨?_, ?_, ?_⟩
      · intro r hr
        rw [hcr] at hr
        exact hmem r hr
      · rw [hcr]
        exact hne
      · rw [hcm, hcr]

set_option maxHeartbeats 1000000 in
/-- Per-record resolution of an all-insertion cluster: the consumed ids
are exactly the cluster ids, every emitted MEMBERS entry is a cluster id,
and each id `s` is counted by `memCount` exactly as often as it occurs
among the cluster ids. -/
theorem processInsCluster_spec (C : ResolveCtx)
    (hcls : ∀ FF RR cn, ∀ r ∈ (C.P.classifyInv FF RR cn).2, r ∈ cn) :
    ∀ (l : List VRecord) (n : Nat) (q : List VRecord) (c : List String) (n' : Nat),
    processInsCluster C n l = Except.ok (q, c, n') →
    (∀ s, s ∈ c ↔ s ∈ l.map (fun r => r.id)) ∧
    (∀ r ∈ q, ∀ s ∈ r.membersInfo, s ∈ l.map (fun r => r.id)) ∧
    (∀ s, memCount q s = (l.map (fun r => r.id)).count s) := by
  intro l
  induction l with
  | nil =>
    intro n q c n' h
    cases h
    refine ⟨by simp, by simp, fun s => ?_⟩
    simp [memCount]
  | cons r rs ih =>
    intro n q c n' h
    rw [processInsCluster] at h
    rcases hm : makeComplexSV C.P [r] with e | st
    · rw [hm] at h
      cases h
    · rw [hm] at h
      simp only [bind, Except.bind] at h
      rcases hrec : processInsCluster C (n + 1) rs with e | out
      · rw [hrec] at h
        cases h
      · rw [hrec] at h
        simp only [bind, Except.bind] at h
        cases h
        obtain ⟨ha, hb, hc⟩ := ih (n + 1) out.1 out.2.1 out.2.2 (by rw [hrec])
        obtain ⟨hsub, hne, hmemb⟩ := makeComplexSV_spec _ _ _ hcls hm
        have hids : ∀ s, s ∈ st.records.map (fun x => x.id) ↔ s = r.id := by
          intro s
          constructor
          · intro hs
            obtain ⟨x, hx, hxs⟩ := List.mem_map.mp hs
            have := hsub x hx
            simp at this
            rw [← hxs, this]
          · intro hs
            rcases hx : st.records with _ | ⟨x0, xs⟩
            · exact absurd hx hne
            · have hx0 : x0 ∈ st.records := by
                rw [hx]
                simp
              have := hsub x0 hx0
              simp at this
              rw [hs]
              simp [this]
        have hrecm : ∀ s,
            s ∈ ({ st.vcf_record with id := C.variantPfx ++ C.freshId n }).membersInfo ↔
              s = r.id := by
          intro s
          show s ∈ st.vcf_record.membersInfo ↔ s = r.id
          rw [hmemb, mem_sortStrs, hids]
        refine ⟨fun s => ?_, ?_, fun s => ?_⟩
        · simp only [List.mem_append, List.map_cons, List.mem_cons, ha, hids]
        · intro r' hr' s hs
          rcases List.mem_cons.mp hr' with hr' | hr'
          · rw [hr'] at hs
            rw [hrecm s] at hs
            simp [hs]
          · have := hb r' hr' s hs
            simp only [List.map_cons, List.mem_cons]
            exact Or.inr this
        · simp only [memCount, List.countP_cons, List.map_cons, List.count_cons]
          have hcp : out.1.countP (fun r => decide (s ∈ r.membersInfo)) =
              List.count s (List.map (fun r => r.id) rs) := hc s
          rw [hcp]
          by_cases hs : s = r.id
          · have h1 : decide (s ∈ ({ st.vcf_record with
                id := C.variantPfx ++ C.freshId n }).membersInfo) = true := by
              simp only [decide_eq_true_eq]
              rw [hrecm s]
              exact hs
            have h2 : (r.id == s) = true := by
              simp [hs]
            rw [h1, h2]
          · have h1 : decide (s ∈ ({ st.vcf_record with
                id := C.variantPfx ++ C.freshId n }).membersInfo) = false := by
              simp only [decide_eq_false_iff_not]
              rw [hrecm s]
              exact hs
            have h2 : (r.id == s) = false := by
              simp only [beq_eq_false_iff_ne, ne_eq]
              exact fun hh => hs hh.symm
            rw [h1, h2]

/-- A queue whose records all carry an empty MEMBERS list counts no id. -/
theorem memCount_nil_members (q : List VRecord)
    (h : ∀ r ∈ q, r.membersInfo = ([] : List String)) : ∀ s, memCount q s = 0 := by
  intro s
  refine List.countP_eq_zero.mpr ?_
  intro r hr
  simp only [decide_eq_true_eq]
  rw [h r hr]
  exact List.not_mem_nil s

set_option maxHeartbeats 1000000 in
/-- Handling of one cluster: consumed ids come from the (post-rescue)
cluster, emitted MEMBERS entries come from the cluster ids, each consumed
id is counted once by the emitted queue or else zero times with the
member record itself re-emitted flagged unresolved, and no id is counted
twice. -/
theorem processCluster_spec (C : ResolveCtx) (n : Nat) (cl : List VRecord)
    (q : List VRecord) (c : List String) (n' : Nat)
    (hcls : ∀ FF RR cn, ∀ r ∈ (C.P.classifyInv FF RR cn).2, r ∈ cn)
    (hmem0 : ∀ r ∈ rescuedCluster C.rescanFn cl, r.membersInfo = ([] : List String))
    (hnd : ((rescuedCluster C.rescanFn cl).map (fun r => r.id)).Nodup)
    (h : processCluster C n cl = Except.ok (q, c, n')) :
    (∀ s ∈ c, s ∈ (rescuedCluster C.rescanFn cl).map (fun r => r.id)) ∧
    (∀ r ∈ q, ∀ s ∈ r.membersInfo,
      s ∈ (rescuedCluster C.rescanFn cl).map (fun r => r.id)) ∧
    (∀ s ∈ c, memCount q s = 1 ∨
      (memCount q s = 0 ∧ ∃ r ∈ q, r.id = s ∧ r.unresolvedFlag = true)) ∧
    (∀ s, memCount q s ≤ 1) := by
  unfold processCluster at h
  dsimp only at h
  split_ifs at h with hall
  · obtain ⟨ha, hb, hc⟩ := processInsCluster_spec C hcls _ n q c n' h
    refine ⟨fun s hs => (ha s).mp hs, hb, fun s hs => ?_, fun s => ?_⟩
    · left
      rw [hc s]
      exact List.count_eq_one_of_mem hnd ((ha s).mp hs)
    · rw [hc s]
      exact List.nodup_iff_count_le_one.mp hnd s
  · rcases hm : makeComplexSV C.P (rescuedCluster C.rescanFn cl) with e | st
    · rw [hm] at h
      cases h
    · rw [hm] at h
      simp only [bind, Except.bind] at h
      obtain ⟨hsub, hne, hmemb⟩ := makeComplexSV_spec _ _ _ hcls hm
      have hconsids : ∀ s, s ∈ st.records.map (fun r => r.id) →
          s ∈ (rescuedCluster C.rescanFn cl).map (fun r => r.id) := by
        intro s hs
        obtain ⟨x, hx, hxs⟩ := List.mem_map.mp hs
        exact List.mem_map.mpr ⟨x, hsub x hx, hxs⟩
      split_ifs at h with hunr
      · cases h
        have hq0 : ∀ r' ∈ st.records.map (fun r =>
            { r with eventInfo := some ("UNRESOLVED_" ++ C.freshId n),
                     cpxTypeInfo := some st.cpx_type, unresolvedFlag := true }),
            r'.membersInfo = ([] : List String) := by
          intro r' hr'
          obtain ⟨x, hx, hxr⟩ := List.mem_map.mp hr'
          rw [← hxr]
          exact hmem0 x (hsub x hx)
        refine ⟨fun s hs => hconsids s hs, ?_, ?_, ?_⟩
        · intro r' hr' s hs
          rw [hq0 r' hr'] at hs
          cases hs
        · intro s hs
          right
          refine ⟨memCount_nil_members _ hq0 s, ?_⟩
          obtain ⟨x, hx, hxs⟩ := List.mem_map.mp hs
          exact ⟨_, List.mem_map_of_mem _ hx, hxs, rfl⟩
        · intro s
          rw [memCount_nil_members _ hq0 s]
          exact Nat.zero_le 1
      · cases h
        have hrm : ({ st.vcf_record with
            id := C.variantPfx ++ C.freshId n }).membersInfo =
              st.vcf_record.membersInfo := rfl
        refine ⟨fun s hs => hconsids s hs, ?_, ?_, ?_⟩
        · intro r' hr' s hs
          rcases List.mem_cons.mp hr' with hr' | hr'
          · rw [hr', hrm, hmemb, mem_sortStrs] at hs
            exact hconsids s hs
          · cases hr'
        · intro s hs
          left
          have hp : decide (s ∈ ({ st.vcf_record with
              id := C.variantPfx ++ C.freshId n }).membersInfo) = true := by
            simp only [decide_eq_true_eq]
            rw [hrm, hmemb, mem_sortStrs]
            exact hs
          simp [memCount, List.countP_cons, hp]
        · intro s
          exact le_trans (List.countP_le_length _) (by simp)

/-- A queue none of whose records lists `s` among MEMBERS counts it zero
times. -/
theorem memCount_zero_of_not_mem (q : List VRecord) (s : String)
    (h : ∀ r ∈ q, s ∉ r.membersInfo) : memCount q s = 0 := by
  refine List.countP_eq_zero.mpr ?_
  intro r hr
  simp only [decide_eq_true_eq]
  exact h r hr

set_option maxHeartbeats 1000000 in
/-- The cluster loop: every consumed id is a post-rescue cluster id, every
emitted MEMBERS entry is one too, each consumed id is counted exactly once
by the queue or zero times with its record re-emitted unresolved, and no
id is ever counted twice. -/
theorem resolveLoop_spec (C : ResolveCtx)
    (hcls : ∀ FF RR cn, ∀ r ∈ (C.P.classifyInv FF RR cn).2, r ∈ cn) :
    ∀ (clusters : List (List VRecord)) (n : Nat) (Q : List VRecord) (Cons : List String),
    (∀ cl ∈ clusters, ∀ r ∈ rescuedCluster C.rescanFn cl,
      r.membersInfo = ([] : List String)) →
    ((clusters.map (fun cl =>
      (rescuedCluster C.rescanFn cl).map (fun r => r.id))).flatten).Nodup →
    resolveLoop C clusters n = Except.ok (Q, Cons) →
    (∀ s ∈ Cons, s ∈ (clusters.map (fun cl =>
      (rescuedCluster C.rescanFn cl).map (fun r => r.id))).flatten) ∧
    (∀ r ∈ Q, ∀ s ∈ r.membersInfo, s ∈ (clusters.map (fun cl =>
      (rescuedCluster C.rescanFn cl).map (fun r => r.id))).flatten) ∧
    (∀ s ∈ Cons, memCount Q s = 1 ∨
      (memCount Q s = 0 ∧ ∃ r ∈ Q, r.id = s ∧ r.unresolvedFlag = true)) ∧
    (∀ s, memCount Q s ≤ 1) := by
  intro clusters
  induction clusters with
  | nil =>
    intro n Q Cons _ _ h
    cases h
    refine ⟨by simp, by simp, by simp, fun s => ?_⟩
    simp [memCount]
  | cons cl cls ih =>
    intro n Q Cons hm0 hnd h
    rw [resolveLoop] at h
    rcases hp : processCluster C n cl with e | out1
    · rw [hp] at h
      cases h
    · rw [hp] at h
      simp only [bind, Except.bind] at h
      obtain ⟨q1, c1, n1⟩ := out1
      rcases hl : resolveLoop C cls n1 with e | out2
      · rw [hl] at h
        cases h
      · rw [hl] at h
        simp only [bind, Except.bind] at h
        obtain ⟨Q2, C2⟩ := out2
        cases h
        simp only [List.map_cons, List.flatten_cons, List.nodup_append] at hnd
        obtain ⟨hnd1, hnd2, hdisj⟩ := hnd
        obtain ⟨p1, p2, p3, p4⟩ := processCluster_spec C n cl q1 c1 n1 hcls
          (hm0 cl (by simp)) hnd1 hp
        obtain ⟨i1, i2, i3, i4⟩ := ih n1 Q2 C2
          (fun cl' hcl' => hm0 cl' (List.mem_cons_of_mem _ hcl')) hnd2 hl
        have hz2 : ∀ s, s ∈ (rescuedCluster C.rescanFn cl).map (fun r => r.id) →
            memCount Q2 s = 0 := by
          intro s hs
          refine memCount_zero_of_not_mem Q2 s ?_
          intro r hr hmem
          exact hdisj hs (i2 r hr s hmem)
        have hz1 : ∀ s, s ∉ (rescuedCluster C.rescanFn cl).map (fun r => r.id) →
            memCount q1 s = 0 := by
          intro s hs
          refine memCount_zero_of_not_mem q1 s ?_
          intro r hr hmem
          exact hs (p2 r hr s hmem)
        have hsplit : ∀ s, memCount (q1 ++ Q2) s = memCount q1 s + memCount Q2 s := by
          intro s
          simp [memCount, List.countP_append]
        refine ⟨?_, ?_, ?_, ?_⟩
        · intro s hs
          simp only [List.map_cons, List.flatten_cons, List.mem_append]
          rcases List.mem_append.mp hs with hs | hs
          · exact Or.inl (p1 s hs)
          · exact Or.inr (i1 s hs)
        · intro r hr s hs
          simp only [List.map_cons, List.flatten_cons, List.mem_append]
          rcases List.mem_append.mp hr with hr | hr
          · exact Or.inl (p2 r hr s hs)
          · exact Or.inr (i2 r hr s hs)
        · intro s hs
          rcases List.mem_append.mp hs with hs | hs
          · have hids : s ∈ (rescuedCluster C.rescanFn cl).map (fun r => r.id) := p1 s hs
            rcases p3 s hs with h1 | ⟨h1, r, hrq, hrid, hrf⟩
            · left
              rw [hsplit s, h1, hz2 s hids]
            · right
              refine ⟨by rw [hsplit s, h1, hz2 s hids], r, List.mem_append_left _ hrq,
                hrid, hrf⟩
          · have hids : s ∈ (List.map (fun cl =>
                (rescuedCluster C.rescanFn cl).map (fun r => r.id)) cls).flatten :=
              i1 s hs
            have hno1 : s ∉ (rescuedCluster C.rescanFn cl).map (fun r => r.id) :=
              fun hc => hdisj hc hids
            rcases i3 s hs with h1 | ⟨h1, r, hrq, hrid, hrf⟩
            · left
              rw [hsplit s, h1, hz1 s hno1]
            · right
              refine ⟨by rw [hsplit s, h1, hz1 s hno1], r, List.mem_append_right _ hrq,
                hrid, hrf⟩
        · intro s
          rw [hsplit s]
          by_cases hin : s ∈ (rescuedCluster C.rescanFn cl).map (fun r => r.id)
          · rw [hz2 s hin]
            exact le_trans (Nat.add_le_add_right (p4 s) 0) (by simp)
          · rw [hz1 s hin]
            simpa using i4 s

/-- Counterexample to C1 as stated: a matched-strands inversion pair is
consumed (both ids land in the consumed-id list) but the cluster is
unresolved, so its two ids appear in the MEMBERS list of zero emitted
records --- the member records are re-emitted individually instead. -/
theorem c1_consumed_ids_in_no_members :
    resolveLoop c1ctx [[c4FF, c1MRR]] 0 = Except.ok (c1urun.1, c1urun.2) ∧
    c1urun.2 = ["ff", "rr"] ∧ c1urun.1.length = 2 ∧
    memCount c1urun.1 "ff" = 0 ∧ memCount c1urun.1 "rr" = 0 :=
  ⟨rfl, by decide, by decide, by decide, by decide⟩

/-- C1 (amended): in a `resolve_complex_sv` run whose post-rescue clusters
have globally distinct member ids and whose input records carry no MEMBERS
entries, every consumed id appears in the MEMBERS list of exactly one
emitted record when its cluster resolves, and of none when the cluster is
unresolved --- in which case the consumed record itself is re-emitted with
its id, flagged UNRESOLVED; no id ever appears in two MEMBERS lists.  The
inversion classifier is external; it is assumed to retain only member
CNVs. -/
theorem consumed_members_unique (C : ResolveCtx) (clusters : List (List VRecord))
    (Q : List VRecord) (Cons : List String)
    (hcls : ∀ FF RR cn, ∀ r ∈ (C.P.classifyInv FF RR cn).2, r ∈ cn)
    (hm0 : ∀ cl ∈ clusters, ∀ r ∈ rescuedCluster C.rescanFn cl,
      r.membersInfo = ([] : List String))
    (hnd : ((clusters.map (fun cl =>
      (rescuedCluster C.rescanFn cl).map (fun r => r.id))).flatten).Nodup)
    (h : resolveLoop C clusters 0 = Except.ok (Q, Cons)) :
    (∀ s ∈ Cons, memCount Q s = 1 ∨
      (memCount Q s = 0 ∧ ∃ r ∈ Q, r.id = s ∧ r.unresolvedFlag = true)) ∧
    (∀ s, memCount Q s ≤ 1) := by
  obtain ⟨_, _, h3, h4⟩ := resolveLoop_spec C hcls clusters 0 Q Cons hm0 hnd h
  exact ⟨h3, h4⟩

/-- Witness for C1 (amended): the candidate-inversion pair run resolves,
and the theorem's conclusion holds of its concrete output. -/
theorem consumed_members_unique_witness :
    (∀ s ∈ c1wrun.2, memCount c1wrun.1 s = 1 ∨
      (memCount c1wrun.1 s = 0 ∧ ∃ r ∈ c1wrun.1, r.id = s ∧ r.unresolvedFlag = true)) ∧
    (∀ s, memCount c1wrun.1 s ≤ 1) :=
  consumed_members_unique c1ctx [[c4FF, c4RR]] c1wrun.1 c1wrun.2
    (fun _ _ _ _ h => h) (by decide) (by decide) rfl

/-- A record that came out of the stripping pass is a fixed point when it
is not a resolved complex record, and triggers the STRANDS `KeyError`
when it is. -/
theorem postProcess_rerun (r v : VRecord) (h : postProcess r = Except.ok v) :
    postProcess v = (if (v.cpxTypeInfo.isSome && !v.unresolvedFlag) = true
      then Except.error "KeyError" else Except.ok v) := by
  obtain ⟨i, ch, p, e, al, sv, c2, st, ag, mb, ev, sl, cx, cxi, so, evt, un, gq, cs, cp, ce,
    rm⟩ := r
  unfold postProcess at h
  cases cx <;> cases un <;> cases st <;> cases cp <;> cases ce <;> cases rm <;>
    simp only [Option.isSome_none, Option.isSome_some, Bool.not_true, Bool.not_false,
      Bool.and_true, Bool.and_false, Bool.true_and, Bool.false_and, if_true, if_false,
      reduceIte] at h <;>
    (cases h <;> rfl)

/-- Every record of a successful stripping pass is the image of some input
record under `postProcess`. -/
theorem postAll_elems : ∀ (l out : List VRecord), postAll l = Except.ok out →
    ∀ v ∈ out, ∃ r, postProcess r = Except.ok v := by
  intro l
  induction l with
  | nil =>
    intro out h v hv
    cases h
    cases hv
  | cons r rs ih =>
    intro out h v hv
    rw [postAll] at h
    rcases hp : postProcess r with e | w
    · rw [hp] at h
      cases h
    · rw [hp] at h
      rcases hr : postAll rs with e | ws
      · rw [hr] at h
        cases h
      · rw [hr] at h
        cases h
        rcases List.mem_cons.mp hv with hv | hv
        · exact ⟨r, by rw [hp, hv]⟩
        · exact ih ws hr v hv

/-- A stream of `postProcess` fixed points passes the stripping pass
unchanged. -/
theorem postAll_fixed : ∀ out : List VRecord,
    (∀ v ∈ out, postProcess v = Except.ok v) → postAll out = Except.ok out := by
  intro out
  induction out with
  | nil => intro _; rfl
  | cons v vs ih =>
    intro hfix
    rw [postAll, hfix v (by simp), ih (fun w hw => hfix w (List.mem_cons_of_mem _ hw))]

/-- A stream of stripped records holding a resolved complex record aborts
the stripping pass. -/
theorem postAll_err : ∀ out : List VRecord,
    (∀ v ∈ out, ∃ r, postProcess r = Except.ok v) →
    (∃ v ∈ out, (v.cpxTypeInfo.isSome && !v.unresolvedFlag) = true) →
    ∃ e, postAll out = Except.error e := by
  intro out
  induction out with
  | nil =>
    intro _ hex
    obtain ⟨v, hv, _⟩ := hex
    cases hv
  | cons v vs ih =>
    intro hsrc hex
    obtain ⟨r, hr⟩ := hsrc v (by simp)
    have hre := postProcess_rerun r v hr
    by_cases hc : (v.cpxTypeInfo.isSome && !v.unresolvedFlag) = true
    · rw [if_pos hc] at hre
      refine ⟨"KeyError", ?_⟩
      rw [postAll, hre]
    · rw [if_neg hc] at hre
      obtain ⟨w, hw, hcw⟩ := hex
      rcases List.mem_cons.mp hw with hw | hw
      · rw [hw] at hcw
        exact absurd hcw hc
      · obtain ⟨e, he⟩ := ih (fun x hx => hsrc x (List.mem_cons_of_mem _ hx)) ⟨w, hw, hcw⟩
        refine ⟨e, ?_⟩
        rw [postAll, hre, he]

/-- C9 (amended): re-running the merge-and-strip stage on the emitted
records of a successful run, with an empty synthesized queue and an empty
consumed set, reproduces the stream exactly when the stream holds no
resolved complex record (CPX_TYPE present without the UNRESOLVED flag);
any such record makes the second run abort with the `KeyError` raised by
the unguarded STRANDS pop, whose operand the first run already removed. -/
theorem reconcile_rerun_iff (rank : String → Nat) (ids : List String)
    (vcf cpx out : List VRecord)
    (h : reconcile rank ids vcf cpx = Except.ok out) :
    (reconcile rank [] out [] = Except.ok out ↔
      ∀ r ∈ out, (r.cpxTypeInfo.isSome && !r.unresolvedFlag) = false) := by
  unfold reconcile at h ⊢
  rw [merge_nil_ids_nil_cpx]
  constructor
  · intro hok
    by_contra hx
    push_neg at hx
    obtain ⟨r, hr, hcond⟩ := hx
    obtain ⟨e, he⟩ := postAll_err out (postAll_elems _ _ h)
      ⟨r, hr, by simpa using hcond⟩
    rw [he] at hok
    cases hok
  · intro hall
    refine postAll_fixed out ?_
    intro v hv
    obtain ⟨r, hr⟩ := postAll_elems _ _ h v hv
    have hre := postProcess_rerun r v hr
    rw [if_neg (by simp [hall v hv]) ] at hre
    exact hre

/-- Counterexample to C9 as stated: the stream emitted for one resolved
complex record is nonempty, but re-running reconciliation on it raises
`KeyError` instead of reproducing it: the first run already popped
STRANDS, and the second run's pop is not guarded by a presence check. -/
theorem c9_rerun_keyerror :
    reconcile rank0 [] [] [c9res] = Except.ok c9out ∧ c9out ≠ [] ∧
    reconcile rank0 [] c9out [] = Except.error "KeyError" := by
  refine ⟨?_, by simp [c9out], ?_⟩
  · show postAll ((mergeLists rank0 [] [] [c9res]).filterMap id) = Except.ok c9out
    simp only [mergeLists]
    rfl
  · unfold reconcile
    rw [merge_nil_ids_nil_cpx]
    rfl

/-- Witness for C9 (amended): on the stream emitted for an
unresolved-flagged record the equivalence is exercised at a concrete
successful first run. -/
theorem reconcile_rerun_iff_witness :
    reconcile rank0 [] c9wout [] = Except.ok c9wout ↔
      ∀ r ∈ c9wout, (r.cpxTypeInfo.isSome && !r.unresolvedFlag) = false :=
  reconcile_rerun_iff rank0 [] [] [c9unr] c9wout (by
    show postAll ((mergeLists rank0 [] [] [c9unr]).filterMap id) = Except.ok c9wout
    simp only [mergeLists]
    rfl)

end Svtk
